import Mathlib

/-!
Shallow embedding of `xlsx.go` (package `xlsx`, repository Felamande/xlsx).

The Go code binds struct records to spreadsheet rows, optionally locating a
title row and "template" style rows in a pre-existing template sheet.  The
embedding below translates the source functions one by one:

* Go strings are Lean `String`s; `strings.Contains` and `strings.Replace`
  are re-implemented on character lists (`goContains`, `goReplace`); the
  patterns used by the code are ASCII, for which character-level and Go's
  byte-level matching agree.
* `time.Time` is external to the repository: a time instant is represented
  by its (external) formatting behaviour, a function `String → String`.
* The spreadsheet document model (unioffice) is external; rows, cells and
  sheets are modelled as lists with the library's get-or-create access
  semantics (`Sheet.Row(n)` finds the first row numbered `n` or appends
  one, `Row.Cell(col)` finds the first cell in column `col` or appends an
  empty one, `Cell.GetString` of a non-string cell is `""`).
* `reflect` panics (e.g. `Value.Field` on a pointer value) are modelled by
  `Option`: a write call that would panic evaluates to `none`.
* Numeric cell payloads are carried exactly as rationals; the float64
  rounding performed by `convertToFloat64` on very large integers is out
  of scope.
-/

namespace XlsxGo

/-- Substring test on character lists: `listIsSubstring sub s` is `true`
iff `sub` occurs contiguously in `s`. -/
def listIsSubstring (sub : List Char) : List Char → Bool
  | [] => sub.isEmpty
  | c :: rest => sub.isPrefixOf (c :: rest) || listIsSubstring sub rest

/-- Go `strings.Contains(s, sub)`. -/
def goContains (s sub : String) : Bool :=
  listIsSubstring sub.data s.data

/-- One left-to-right pass of non-overlapping replacement, fuelled so that
the kernel can evaluate it (fuel `s.length` suffices: every step consumes
at least one character of `s`). -/
def replaceFuel (old new : List Char) : Nat → List Char → List Char
  | 0, s => s
  | _ + 1, [] => []
  | fuel + 1, c :: rest =>
    if !old.isEmpty && old.isPrefixOf (c :: rest) then
      new ++ replaceFuel old new fuel ((c :: rest).drop old.length)
    else
      c :: replaceFuel old new fuel rest

/-- Go `strings.Replace(s, old, new, -1)`: replace every leftmost
non-overlapping occurrence of `old` by `new` (the code never calls it with
an empty `old`). -/
def goReplace (s old new : String) : String :=
  String.mk (replaceFuel old.data new.data s.data.length s.data)

/-- `ConvertLayout` converts the time format in java to golang
(source lines 369-381). -/
def ConvertLayout (layout : String) : String :=
  let lo := layout
  let lo := goReplace lo "yyyy" "2006"
  let lo := goReplace lo "yy" "06"
  let lo := goReplace lo "MM" "01"
  let lo := goReplace lo "dd" "02"
  let lo := goReplace lo "HH" "15"
  let lo := goReplace lo "mm" "04"
  let lo := goReplace lo "ss" "05"
  let lo := goReplace lo "SSS" "000"
  lo

/-- A `time.Time` instant, external to the repository: it is represented by
the behaviour of its `Format` method. -/
structure GoTime where
  format : String → String

/-- The runtime value of one struct field, classified exactly by the type
switch in `setCellValue` (source lines 207-218): a time, a value of the
integer family, a value of the float family, a string, or anything else. -/
inductive GoValue where
  | timeV (t : GoTime)
  | intV (n : Int)
  | floatV (q : Rat)
  | strV (s : String)
  | otherV

/-- `convertToFloat64` (source lines 383-412): integer and float kinds are
widened to a common numeric representation, anything else yields `0`. -/
def convertToFloat64 : GoValue → Rat
  | .intV n => (n : Rat)
  | .floatV q => q
  | _ => 0

/-- One exportable struct field together with the tag attributes the code
reads: `reflect.StructField` restricted to what `xlsx.go` uses.
`index` is the field's position in the struct (`field.Index`), `title` and
`format` are the `title:"..."` and `format:"..."` tags (`""` if absent). -/
structure FieldSpec where
  name : String
  index : Nat
  title : String
  format : String
  deriving Repr, DecidableEq

/-- A record value of the target struct type: the value of each field slot,
indexed by `FieldSpec.index`. -/
def Record := List GoValue

/-- `value.FieldByIndex(field.Index).Interface()` for an in-range index.
Records are values of the inspected struct type, so the index is in range;
the model totalises with `otherV`. -/
def fieldValue (r : Record) (f : FieldSpec) : GoValue :=
  r.getD f.index .otherV

/-- The dynamic argument of a write: Go `reflect` distinguishes a struct
value from a pointer to one.  `Write` dereferences the pointer only at the
*type* level (source lines 79-81); the reflect *value* stays a pointer. -/
inductive BeanValue where
  | structV (r : Record)
  | ptrV (r : Record)

/-- `value.FieldByIndex(field.Index)` on the reflect value: on a struct it
reads the field; on a pointer value `reflect.Value.Field` panics
("call of reflect.Value.Field on ptr Value"), modelled as `none`. -/
def fieldByIndex : BeanValue → FieldSpec → Option GoValue
  | .structV r, f => some (fieldValue r f)
  | .ptrV _, _ => none

/-- The `beans` argument of `Write`: a single value or a slice
(`beanReflectValue.Kind() == reflect.Slice`). -/
inductive Beans where
  | one (v : BeanValue)
  | many (vs : List BeanValue)

/-- The content of a spreadsheet cell, as far as the code writes or reads
it: unset, a string, a native date/time, or a number. -/
inductive CellValue where
  | unset
  | str (s : String)
  | timeCell (t : GoTime)
  | number (q : Rat)

/-- A cell: its column letter, its value, and its style reference
(`CT_Cell.SAttr`, `none` when the cell carries no explicit style). -/
structure GoCell where
  col : String
  value : CellValue
  sattr : Option Nat

/-- A sheet row: its 1-based row number (`CT_Row.RAttr`) and its cells. -/
structure GoRow where
  num : Int
  cells : List GoCell

/-- A sheet: its name and its row collection (`SheetData.Row`). -/
structure GoSheet where
  name : String
  rows : List GoRow

/-- `Cell.GetString`: the string content of a cell, `""` for a non-string
cell (unioffice returns the empty string for numbers, times and unset). -/
def cellGetString (c : GoCell) : String :=
  match c.value with
  | .str s => s
  | _ => ""

/-- `Row.Cell(col)` used for reading: the first cell in column `col`, or a
fresh empty cell (unioffice creates one; an empty cell reads as `""` with
no style, so the creation is invisible to every observer the code uses). -/
def lookupCell : List GoCell → String → Option GoCell
  | [], _ => none
  | c :: rest, col => if c.col == col then some c else lookupCell rest col

/-- The cell `Row.Cell(col)` yields on row `row` (found or freshly made). -/
def rowCell (row : GoRow) (col : String) : GoCell :=
  match lookupCell row.cells col with
  | some c => c
  | none => ⟨col, .unset, none⟩

/-- Value observer: what `Cell.GetString`/value reads see in column `col`. -/
def cellValueIn (row : GoRow) (col : String) : CellValue :=
  (rowCell row col).value

/-- Style observer: the `SAttr` of column `col` of a row. -/
def cellSAttrIn (row : GoRow) (col : String) : Option Nat :=
  (rowCell row col).sattr

/-- `Row.Cell(col)` used for writing: update the first cell of column `col`
in place, or append a fresh one and update it. -/
def updateCellF (col : String) (f : GoCell → GoCell) : List GoCell → List GoCell
  | [] => [f ⟨col, .unset, none⟩]
  | c :: rest =>
    if c.col == col then f c :: rest else c :: updateCellF col f rest

/-- `Sheet.Row(num)` combined with a fallible in-place mutation: find the
first row numbered `num` (or append a fresh one) and run `f` on it.
`none` propagates a reflect panic raised while setting cells. -/
def updateRowM (num : Int) (f : GoRow → Option GoRow) :
    List GoRow → Option (List GoRow)
  | [] => (f ⟨num, []⟩).map (fun r => [r])
  | r :: rest =>
    if r.num == num then (f r).map (fun r' => r' :: rest)
    else (updateRowM num f rest).map (fun rest' => r :: rest')

/-- Find the first row numbered `num` (read-only). -/
def rowIn : List GoRow → Int → Option GoRow
  | [], _ => none
  | r :: rest, num => if r.num == num then some r else rowIn rest num

/-- Value of the cell at row number `num`, column `col` of a row list
(unset when the row or the cell is absent). -/
def rowCellValue (rows : List GoRow) (num : Int) (col : String) : CellValue :=
  match rowIn rows num with
  | some r => cellValueIn r col
  | none => .unset

/-- Excel column letter for 0-based column index `n` (bijective base 26),
as the external library assigns letters to appended cells. -/
def colLetterAux : Nat → Nat → String → String
  | 0, _, acc => acc
  | _ + 1, 0, acc => acc
  | fuel + 1, k, acc =>
    colLetterAux fuel ((k - 1) / 26)
      (String.mk [Char.ofNat (65 + (k - 1) % 26)] ++ acc)

/-- Column letter of 0-based index `n`: `colLetter 0 = "A"`. -/
def colLetter (n : Nat) : String :=
  colLetterAux (n + 1) (n + 1) ""

/-- `Sheet.AddRow`: append a row numbered one past the largest existing row
number (`maxRowNum` of an empty sheet is `0`, so the first row is `1`). -/
def maxRowNum (rows : List GoRow) : Int :=
  rows.foldl (fun m r => max m r.num) 0

/-- `collectTitles` (source lines 148-163): resolve one title per field —
the `title` tag if present, else the field name — and flag whether any
title was customized. -/
def collectTitles (fields : List FieldSpec) : List String × Bool :=
  fields.foldl
    (fun acc f =>
      if f.title ≠ "" then (acc.1 ++ [f.title], true)
      else (acc.1 ++ [f.name], acc.2))
    ([], false)

/-- The type switch of `setCellValue` (source lines 207-218) as a pure cell
transformer: a time with a `format` tag is stored as text formatted with
the translated layout, a time without one as a native time value, integer
and float kinds as a number, strings as text; any other kind leaves the
cell unchanged. -/
def applyCellValue (field : FieldSpec) (v : GoValue) (old : CellValue) : CellValue :=
  match v with
  | .timeV t =>
    if field.format ≠ "" then .str (t.format (ConvertLayout field.format))
    else .timeCell t
  | .intV _ => .number (convertToFloat64 v)
  | .floatV _ => .number (convertToFloat64 v)
  | .strV s => .str s
  | .otherV => old

/-- `setCellValue(cell, field, value)` (source lines 204-219): read the
field from the reflect value (this panics on a pointer value) and set the
cell content accordingly. -/
def setCellValue (field : FieldSpec) (v : BeanValue) (cell : GoCell) : Option GoCell :=
  match fieldByIndex v field with
  | none => none
  | some gv => some { cell with value := applyCellValue field gv cell.value }

/-- One `(cellColumn, structField)` pair recorded by the title scan
(source lines 237-240). -/
structure TemplateCellPair where
  cellColumn : String
  structField : FieldSpec
  deriving Repr, DecidableEq

/-- `templateLocation` (source lines 230-235); the zero value (used when no
template is active) has `titledRowIndex = 0` and empty lists.
`templateRows` snapshots the marker rows found at scan time; the code keeps
live row references, but the only later reads are of style attributes,
which no subsequent operation changes to a different value (`SetStyle`
rewrites the identical index), so the snapshot is faithful. -/
structure TemplateLocation where
  titledRowIndex : Int
  rowsEndIndex : Nat
  templateCells : List TemplateCellPair
  templateRows : List GoRow

/-- `templateLocation.isValid` (source lines 242-244). -/
def TemplateLocation.isValid (t : TemplateLocation) : Bool :=
  !t.templateCells.isEmpty

/-- The inner title loop of `findTemplateTitledRow` (source lines 272-289):
scan the resolved titles in order; on the first title contained in the cell
text, record the cell's column with the title's field and stop testing
further titles for this cell.  Titles already matched by earlier cells are
tested again (the code keeps no matched-set).  `i` is the running title
index; `fields` and `titles` have equal length by construction
(`collectTitles` yields one title per field). -/
def findTitleMatchAux (fields : List FieldSpec) (cellString col : String) :
    Nat → List String → Option TemplateCellPair
  | _, [] => none
  | i, t :: ts =>
    if goContains cellString t then
      some ⟨col, fields.getD i ⟨"", 0, "", ""⟩⟩
    else findTitleMatchAux fields cellString col (i + 1) ts

/-- The match recorded for one cell, if any. -/
def findTitleMatch (fields : List FieldSpec) (titles : List String)
    (cellString col : String) : Option TemplateCellPair :=
  findTitleMatchAux fields cellString col 0 titles

/-- The cell loop of `findTemplateTitledRow` for one row: each cell
appends at most one `(column, field)` pair; scanning continues over the
remaining cells of the row after a match. -/
def rowTemplateCells (fields : List FieldSpec) (titles : List String)
    (row : GoRow) : List TemplateCellPair :=
  row.cells.foldl
    (fun acc cell =>
      match findTitleMatch fields titles (cellGetString cell) cell.col with
      | some tc => acc ++ [tc]
      | none => acc)
    []

/-- The row loop of `findTemplateTitledRow` (source lines 263-299): stop at
the first row whose scan recorded at least one pair; if no row matches,
return `(-1, [])`. -/
def findTemplateTitledRowAux (fields : List FieldSpec) (titles : List String) :
    Nat → List GoRow → Int × List TemplateCellPair
  | _, [] => (-1, [])
  | rowIndex, row :: rest =>
    let cells := rowTemplateCells fields titles row
    if cells.isEmpty then findTemplateTitledRowAux fields titles (rowIndex + 1) rest
    else ((rowIndex : Int), cells)

/-- `findTemplateTitledRow` (source lines 263-299). -/
def findTemplateTitledRow (fields : List FieldSpec) (titles : List String)
    (rows : List GoRow) : Int × List TemplateCellPair :=
  findTemplateTitledRowAux fields titles 0 rows

/-- The scan loop of `findTemplateRows` (source lines 311-317): a row whose
marker-column cell contains `"template"` is collected; a non-marker row is
returned alone if nothing was collected yet, and skipped otherwise (the
loop does not stop, so markers after a gap are still collected). -/
def findTemplateRowsAux (col : String) :
    List GoRow → List GoRow → List GoRow
  | acc, [] => acc
  | acc, r :: rest =>
    if goContains (cellGetString (rowCell r col)) "template" then
      findTemplateRowsAux col (acc ++ [r]) rest
    else if acc.isEmpty then acc ++ [r]
    else findTemplateRowsAux col acc rest

/-- `findTemplateRows` (source lines 301-320).  The code indexes
`templateCells[0]`; a valid call site guarantees the list is non-empty
whenever `titledRowIndex ≥ 0`, and the empty case is returned unreached. -/
def findTemplateRows (titledRowIndex : Int)
    (templateCells : List TemplateCellPair) (rows : List GoRow) : List GoRow :=
  if titledRowIndex < 0 then []
  else
    match templateCells with
    | [] => []
    | tc :: _ =>
      findTemplateRowsAux tc.cellColumn [] (rows.drop (titledRowIndex.toNat + 1))

/-- The mutable state of an `Xlsx` instance: the workbook's sheets, the
index of `currentSheet` within them, the `rowsWritten` counter, and whether
a template file was supplied (`option.TemplateFile != ""`).
The workbook style sheet is immutable here and passed separately: a map
`styles : Nat → Bool` assigning to each style identifier whether
`StyleSheet.GetCellStyle(id).IsEmpty()` holds; the style returned for `id`
has `Index() = id`, which is what `SetStyle` writes back into a cell. -/
structure XlsxState where
  sheets : List GoSheet
  current : Nat
  rowsWritten : Nat
  hasTemplate : Bool

/-- Rows of `x.currentSheet`. -/
def currentRows (st : XlsxState) : List GoRow :=
  (st.sheets.getD st.current ⟨"", []⟩).rows

/-- Replace the rows of `x.currentSheet`. -/
def setCurrentRows (st : XlsxState) (rows : List GoRow) : XlsxState :=
  { st with
    sheets := st.sheets.set st.current
      { st.sheets.getD st.current ⟨"", []⟩ with rows := rows } }

/-- `locateTitles` (source lines 246-261): without a template the zero
location; otherwise scan the current sheet. -/
def locateTitles (st : XlsxState) (fields : List FieldSpec)
    (titles : List String) : TemplateLocation :=
  if !st.hasTemplate then ⟨0, 0, [], []⟩
  else
    let rows := currentRows st
    let r := findTemplateTitledRow fields titles rows
    let templateRows := findTemplateRows r.1 r.2 rows
    ⟨r.1, rows.length, r.2, templateRows⟩

/-- The cell loop of `writeTemplateRow` (source lines 328-330): set each
matched field's cell, in `templateCells` order, on the destination row. -/
def setRowCells (tcs : List TemplateCellPair) (v : BeanValue)
    (row : GoRow) : Option GoRow :=
  tcs.foldlM
    (fun r tc =>
      match fieldByIndex v tc.structField with
      | none => none
      | some gv =>
        some { r with
               cells := updateCellF tc.cellColumn
                 (fun c => { c with value := applyCellValue tc.structField gv c.value })
                 r.cells })
    row

/-- The cell write of `writeTemplateRow` specialised to a struct value:
`setCellValue(row.Cell(tc.cellColumn), tc.structField, v)` with
`v` a (non-pointer) record — the shape every successful step of
`setRowCells` takes. -/
def setOneCellValue (rec : Record) (row : GoRow) (tc : TemplateCellPair) : GoRow :=
  { row with
    cells := updateCellF tc.cellColumn
      (fun c =>
        { c with
          value := applyCellValue tc.structField (fieldValue rec tc.structField)
            c.value })
      row.cells }

/-- The loop body of `copyRowStyle` (source lines 342-348): if the
exemplar cell of the matched column carries an explicit style reference
(`SAttr ≠ nil`) whose style is not empty, write that reference onto the
destination row's cell (`SetStyle` stores the style's own index, which for
`GetCellStyle(id)` is `id`); otherwise leave the row alone. -/
def copyCellStyle (styles : Nat → Bool) (templateRow : GoRow)
    (r : GoRow) (tc : TemplateCellPair) : GoRow :=
  match cellSAttrIn templateRow tc.cellColumn with
  | some id =>
    if styles id then r
    else
      { r with
        cells := updateCellF tc.cellColumn
          (fun c => { c with sattr := some id }) r.cells }
  | none => r

/-- `copyRowStyle` (source lines 335-349) as a transformer of the freshly
written row: when at least as many rows were written as there are template
rows, pick the exemplar row at index `(rowsWritten - 1) % len` and copy
each matched column's style onto the row (columns whose exemplar cell
carries no explicit style, or whose style is empty, are skipped). -/
def copyRowStyle (styles : Nat → Bool) (l : TemplateLocation)
    (rowsWritten : Nat) (row : GoRow) : GoRow :=
  if l.templateRows.isEmpty || rowsWritten < l.templateRows.length then row
  else
    let templateRow :=
      l.templateRows.getD ((rowsWritten - 1) % l.templateRows.length) ⟨0, []⟩
    l.templateCells.foldl (copyCellStyle styles templateRow) row

/-- `writeTemplateRow` (source lines 322-333): compute the 1-based
destination row number `titledRowIndex + 2 + rowsWritten`, increment the
counter, set the matched cells, then copy styles.  The Go code converts
the number to `uint32`; this path only runs on a valid location, where
`titledRowIndex ≥ 0`, so the conversion is the identity and the number is
kept as an integer. -/
def writeTemplateRow (styles : Nat → Bool) (l : TemplateLocation)
    (v : BeanValue) (st : XlsxState) : Option XlsxState :=
  let num : Int := l.titledRowIndex + 2 + st.rowsWritten
  let st' := { st with rowsWritten := st.rowsWritten + 1 }
  (updateRowM num
      (fun row => (setRowCells l.templateCells v row).map
        (copyRowStyle styles l st'.rowsWritten))
      (currentRows st')).map
    (setCurrentRows st')

/-- `removeTempleRows` (source lines 351-362): with template rows present,
truncate the current sheet's row collection to
`titledRowIndex + 1 + rowsWritten` rows when it holds more. -/
def removeTempleRows (l : TemplateLocation) (st : XlsxState) : XlsxState :=
  if l.templateRows.isEmpty then st
  else
    let rows := currentRows st
    let endIndex : Int := l.titledRowIndex + 1 + st.rowsWritten
    if endIndex < rows.length then setCurrentRows st (rows.take endIndex.toNat)
    else st

/-- The cell loop of `writeRow` (source lines 196-202): `row.AddCell()`
appends a cell in the next column, then `setCellValue` fills it. -/
def writeRowCells (fields : List FieldSpec) (v : BeanValue)
    (row : GoRow) : Option GoRow :=
  fields.foldlM
    (fun r f =>
      match setCellValue f v ⟨colLetter r.cells.length, .unset, none⟩ with
      | none => none
      | some c => some { r with cells := r.cells ++ [c] })
    row

/-- `writeRow` (source lines 196-202): append a fresh row at the end of the
current sheet and fill one cell per field. -/
def writeRow (fields : List FieldSpec) (v : BeanValue)
    (st : XlsxState) : Option XlsxState :=
  let rows := currentRows st
  (writeRowCells fields v ⟨maxRowNum rows + 1, []⟩).map
    (fun row => setCurrentRows st (rows ++ [row]))

/-- `writeTitles` (source lines 221-228): append a fresh row and write one
title cell per field, left to right (`titles` has one entry per field). -/
def writeTitles (fields : List FieldSpec) (titles : List String)
    (st : XlsxState) : XlsxState :=
  let rows := currentRows st
  let row : GoRow :=
    ⟨maxRowNum rows + 1,
      (List.range fields.length).map
        (fun i => ⟨colLetter i, .str (titles.getD i ""), none⟩)⟩
  setCurrentRows st (rows ++ [row])

/-- `createSheet` (source lines 121-146): with a template, reuse the sheet
named by the `sheet` tag, else the first sheet; otherwise (or when the
template workbook is empty) add a fresh sheet, named `Sheet N` by the
library; finally rename it to the tag's name unless already contained. -/
def createSheet (sheetName : String) (st : XlsxState) : XlsxState :=
  if st.hasTemplate &&
      (st.sheets.findIdx? (fun s => s.name == sheetName)).isSome then
    { st with current := (st.sheets.findIdx? (fun s => s.name == sheetName)).getD 0 }
  else
    let (sheets, idx) : List GoSheet × Nat :=
      if st.hasTemplate && !st.sheets.isEmpty then (st.sheets, 0)
      else
        (st.sheets ++ [⟨"Sheet " ++ toString (st.sheets.length + 1), []⟩],
          st.sheets.length)
    let cur := sheets.getD idx ⟨"", []⟩
    let sheets :=
      if sheetName ≠ "" ∧ ¬goContains cur.name sheetName then
        sheets.set idx { cur with name := sheetName }
      else sheets
    { st with sheets := sheets, current := idx }

/-- The write-titles decision of `Write` (source lines 90-92): customized
titles count only when the template location is invalid. -/
def writeTitleFlag (customized : Bool) (ttagTitle : String)
    (l : TemplateLocation) : Bool :=
  (customized && !l.isValid) || ttagTitle ≠ ""

/-- The template-mode loop of `Write` (source lines 96-109) without the
final truncation: reset `rowsWritten` to zero, then write each record. -/
def writeTemplateLoop (styles : Nat → Bool) (l : TemplateLocation)
    (beans : Beans) (st : XlsxState) : Option XlsxState :=
  let st0 := { st with rowsWritten := 0 }
  match beans with
  | .one v => writeTemplateRow styles l v st0
  | .many vs => vs.foldlM (fun s v => writeTemplateRow styles l v s) st0

/-- The template-mode path of `Write`: loop then `removeTempleRows`. -/
def writeTemplatePath (styles : Nat → Bool) (l : TemplateLocation)
    (beans : Beans) (st : XlsxState) : Option XlsxState :=
  (writeTemplateLoop styles l beans st).map (removeTempleRows l)

/-- The no-template path of `Write` (source lines 112-118): append one row
per record. -/
def writeNoTemplatePath (fields : List FieldSpec) (beans : Beans)
    (st : XlsxState) : Option XlsxState :=
  match beans with
  | .one v => writeRow fields v st
  | .many vs => vs.foldlM (fun s v => writeRow fields v s) st

/-- The reflection front-end of `Write` is the caller's type: `rt` carries
what `collectExportableFields` and `findTTag` extract — the exportable
fields and the marker field's type-level `sheet` and `title` tags. -/
structure RecordType where
  fields : List FieldSpec
  ttagSheet : String
  ttagTitle : String

/-- `Write` (source lines 70-119): pick the sheet, resolve titles, locate
the template, optionally write a title row, then follow the template or
the no-template path.  A `none` result models a reflect panic (pointer
values are never dereferenced by the code). -/
def Write (styles : Nat → Bool) (rt : RecordType) (beans : Beans)
    (st : XlsxState) : Option XlsxState :=
  let st1 := createSheet rt.ttagSheet st
  let resolved := collectTitles rt.fields
  let location := locateTitles st1 rt.fields resolved.1
  let st2 :=
    if writeTitleFlag resolved.2 rt.ttagTitle location then
      writeTitles rt.fields resolved.1 st1
    else st1
  if location.isValid then writeTemplatePath styles location beans st2
  else writeNoTemplatePath rt.fields beans st2

/-- Specification-side observer for the title scan: does some cell of the
row contain some resolved title as a substring? -/
def rowHasTitleMatch (titles : List String) (row : GoRow) : Bool :=
  row.cells.any (fun c => titles.any (fun t => goContains (cellGetString c) t))

/-- Closed form of the cells `writeRow` appends for one record: one cell
per field in declaration order, columns starting at index `start`. -/
def mkRecordCells (r : Record) : Nat → List FieldSpec → List GoCell
  | _, [] => []
  | start, f :: fs =>
    ⟨colLetter start, applyCellValue f (fieldValue r f) .unset, none⟩ ::
      mkRecordCells r (start + 1) fs

/-- Closed form of the rows the no-template path appends for a record
list, the first row numbered `m + 1`. -/
def recordRowsFrom (fields : List FieldSpec) : Int → List Record → List GoRow
  | _, [] => []
  | m, r :: rest =>
    ⟨m + 1, mkRecordCells r 0 fields⟩ :: recordRowsFrom fields (m + 1) rest

/-- The title row `writeTitles` appends on a sheet whose largest row
number is `m`. -/
def titleRowAt (m : Int) (fields : List FieldSpec) (titles : List String) : GoRow :=
  ⟨m + 1,
    (List.range fields.length).map
      (fun i => ⟨colLetter i, .str (titles.getD i ""), none⟩)⟩

/-! ## Basic lemmas about cell and row access -/

theorem lookupCell_updateCellF_self (col : String) (f : GoCell → GoCell)
    (hf : ∀ c, (f c).col = c.col) (cells : List GoCell) :
    lookupCell (updateCellF col f cells) col =
      some (f ((lookupCell cells col).getD ⟨col, .unset, none⟩)) := by
  induction cells with
  | nil => simp [lookupCell, updateCellF, hf]
  | cons c rest ih =>
    by_cases h : c.col = col
    · simp [lookupCell, updateCellF, h, hf]
    · simpa [lookupCell, updateCellF, h, hf] using ih

theorem lookupCell_updateCellF_other (col col' : String) (f : GoCell → GoCell)
    (hf : ∀ c, (f c).col = c.col) (hne : col' ≠ col) (cells : List GoCell) :
    lookupCell (updateCellF col f cells) col' = lookupCell cells col' := by
  induction cells with
  | nil => simp [lookupCell, updateCellF, hf, Ne.symm hne]
  | cons c rest ih =>
    by_cases h : c.col = col
    · simp [lookupCell, updateCellF, h, hf, Ne.symm hne]
    · by_cases h' : c.col = col'
      · simp [lookupCell, updateCellF, h, h', hne]
      · simpa [lookupCell, updateCellF, h, h'] using ih

theorem rowCell_eq (row : GoRow) (col : String) :
    rowCell row col = (lookupCell row.cells col).getD ⟨col, .unset, none⟩ := by
  simp only [rowCell]
  cases lookupCell row.cells col <;> rfl

theorem updateRowM_spec (num : Int) (f : GoRow → Option GoRow)
    (hf : ∀ r, (f r).isSome)
    (hnum : ∀ r r', f r = some r' → r'.num = r.num) (rows : List GoRow) :
    ∃ rows', updateRowM num f rows = some rows' ∧
      rowIn rows' num = f ((rowIn rows num).getD ⟨num, []⟩) ∧
      (∀ num', num' ≠ num → rowIn rows' num' = rowIn rows num') := by
  induction rows with
  | nil =>
    obtain ⟨r', hr'⟩ := Option.isSome_iff_exists.mp (hf ⟨num, []⟩)
    have hn : r'.num = num := hnum _ _ hr'
    refine ⟨[r'], ?_, ?_, ?_⟩
    · simp [updateRowM, hr']
    · simp [rowIn, hn, hr']
    · intro num' hne
      simp [rowIn, hn, Ne.symm hne]
  | cons r rest ih =>
    by_cases h : r.num = num
    · obtain ⟨r', hr'⟩ := Option.isSome_iff_exists.mp (hf r)
      have hrn : r'.num = r.num := hnum _ _ hr'
      refine ⟨r' :: rest, ?_, ?_, ?_⟩
      · simp [updateRowM, h, hr']
      · simp [rowIn, hrn, h, hr']
      · intro num' hne
        simp [rowIn, hrn, h, Ne.symm hne]
    · obtain ⟨rows', h1, h2, h3⟩ := ih
      refine ⟨r :: rows', ?_, ?_, ?_⟩
      · simp [updateRowM, h, h1]
      · simpa [rowIn, h] using h2
      · intro num' hne
        by_cases hrr : r.num = num'
        · simp [rowIn, hrr]
        · simpa [rowIn, hrr] using h3 num' hne

/-! ## C8: per-kind cell materialization -/

/-- C8: whenever a field's cell is set, a time-kind field with a format tag
stores text produced by formatting the instant with the layout translated
token-by-token (yyyy→2006, yy→06, MM→01, dd→02, HH→15, mm→04, ss→05,
SSS→000); a time-kind field without a format tag stores a native date/time
value; integer and float kinds store a numeric value (widened to a common
numeric representation by `convertToFloat64`); string kinds store the
text; any other kind leaves the cell unset without raising an error. -/
theorem C8_cell_materialization :
    (∀ f t old, f.format ≠ "" →
      applyCellValue f (.timeV t) old = .str (t.format (ConvertLayout f.format))) ∧
    (∀ f t old, f.format = "" →
      applyCellValue f (.timeV t) old = .timeCell t) ∧
    (∀ f n old, applyCellValue f (.intV n) old = .number ((n : Rat))) ∧
    (∀ f q old, applyCellValue f (.floatV q) old = .number q) ∧
    (∀ f s old, applyCellValue f (.strV s) old = .str s) ∧
    (∀ f old, applyCellValue f .otherV old = old) ∧
    ConvertLayout "yyyy" = "2006" ∧ ConvertLayout "yy" = "06" ∧
    ConvertLayout "MM" = "01" ∧ ConvertLayout "dd" = "02" ∧
    ConvertLayout "HH" = "15" ∧ ConvertLayout "mm" = "04" ∧
    ConvertLayout "ss" = "05" ∧ ConvertLayout "SSS" = "000" ∧
    ConvertLayout "yyyy-MM-dd HH:mm:ss.SSS" = "2006-01-02 15:04:05.000" := by
  refine ⟨?_, ?_, ?_, ?_, ?_, ?_, ?_, ?_, ?_, ?_, ?_, ?_, ?_, ?_, ?_⟩
  · intro f t old h
    simp [applyCellValue, h]
  · intro f t old h
    simp [applyCellValue, h]
  · intro f n old
    rfl
  · intro f q old
    rfl
  · intro f s old
    rfl
  · intro f old
    rfl
  all_goals rfl

/-- Witness for C8 at concrete inputs: a time field tagged
`format:"yyyy-MM-dd"` read through an identity-formatting instant. -/
theorem C8_witness :
    applyCellValue ⟨"Day", 0, "", "yyyy-MM-dd"⟩ (.timeV ⟨fun l => l⟩) .unset =
      .str "2006-01-02" ∧
    applyCellValue ⟨"Day", 0, "", ""⟩ (.timeV ⟨fun l => l⟩) .unset =
      .timeCell ⟨fun l => l⟩ := by
  constructor
  · have h := C8_cell_materialization.1 ⟨"Day", 0, "", "yyyy-MM-dd"⟩
      ⟨fun l => l⟩ .unset (by decide)
    rw [h]
    rfl
  · exact C8_cell_materialization.2.1 ⟨"Day", 0, "", ""⟩ ⟨fun l => l⟩ .unset rfl

/-! ## Title scan lemmas (C1, C7) -/

theorem findTitleMatchAux_spec (fields : List FieldSpec) (s col : String) :
    ∀ (titles : List String) (i : Nat),
      findTitleMatchAux fields s col i titles =
        if titles.any (fun t => goContains s t) then
          some ⟨col, fields.getD (i + titles.findIdx (fun t => goContains s t))
            ⟨"", 0, "", ""⟩⟩
        else none := by
  intro titles
  induction titles with
  | nil => intro i; simp [findTitleMatchAux]
  | cons t ts ih =>
    intro i
    by_cases h : goContains s t = true
    · simp [findTitleMatchAux, h, List.findIdx_cons]
    · have hb : goContains s t = false := by
        cases hg : goContains s t
        · rfl
        · exact absurd hg h
      rw [findTitleMatchAux, if_neg (by simp [hb]), ih (i + 1)]
      by_cases ha : ts.any (fun t => goContains s t) = true
      · have harith : i + 1 + ts.findIdx (fun t => goContains s t) =
            i + (ts.findIdx (fun t => goContains s t) + 1) := by omega
        simp [ha, hb, List.findIdx_cons, harith]
      · simp [List.any_cons, hb, ha]

theorem findTitleMatch_eq (fields : List FieldSpec) (titles : List String)
    (s col : String) :
    findTitleMatch fields titles s col =
      if titles.any (fun t => goContains s t) then
        some ⟨col, fields.getD (titles.findIdx (fun t => goContains s t))
          ⟨"", 0, "", ""⟩⟩
      else none := by
  simpa using findTitleMatchAux_spec fields s col titles 0

theorem foldl_matchAppend (f : GoCell → Option TemplateCellPair) :
    ∀ (cells : List GoCell) (acc : List TemplateCellPair),
      cells.foldl
        (fun acc cell =>
          match f cell with
          | some tc => acc ++ [tc]
          | none => acc) acc = acc ++ cells.filterMap f := by
  intro cells
  induction cells with
  | nil => intro acc; simp
  | cons c rest ih =>
    intro acc
    cases hc : f c with
    | none => simp [List.foldl_cons, hc, ih, List.filterMap_cons]
    | some tc => simp [List.foldl_cons, hc, ih, List.filterMap_cons]

theorem rowTemplateCells_eq_filterMap (fields : List FieldSpec)
    (titles : List String) (row : GoRow) :
    rowTemplateCells fields titles row =
      row.cells.filterMap
        (fun cell => findTitleMatch fields titles (cellGetString cell) cell.col) := by
  simpa [rowTemplateCells] using
    foldl_matchAppend
      (fun cell => findTitleMatch fields titles (cellGetString cell) cell.col)
      row.cells []

theorem rowTemplateCells_empty_iff (fields : List FieldSpec)
    (titles : List String) (row : GoRow) :
    rowTemplateCells fields titles row = [] ↔
      rowHasTitleMatch titles row = false := by
  rw [rowTemplateCells_eq_filterMap, List.filterMap_eq_nil_iff]
  constructor
  · intro h
    rw [rowHasTitleMatch, List.any_eq_false]
    intro c hc
    have hm := h c hc
    rw [findTitleMatch_eq] at hm
    by_cases ha : titles.any (fun t => goContains (cellGetString c) t) = true
    · rw [if_pos ha] at hm
      exact absurd hm (by simp)
    · simpa using ha
  · intro h c hc
    rw [rowHasTitleMatch, List.any_eq_false] at h
    have := h c hc
    rw [findTitleMatch_eq, if_neg (by simpa using this)]

theorem findTemplateTitledRowAux_noMatch (fields : List FieldSpec)
    (titles : List String) :
    ∀ (rows : List GoRow), (∀ r ∈ rows, rowHasTitleMatch titles r = false) →
      ∀ i, findTemplateTitledRowAux fields titles i rows = (-1, []) := by
  intro rows
  induction rows with
  | nil => intro _ i; rfl
  | cons r rest ih =>
    intro h i
    have hr : rowTemplateCells fields titles r = [] :=
      (rowTemplateCells_empty_iff fields titles r).mpr (h r (by simp))
    rw [findTemplateTitledRowAux]
    simp only [hr, List.isEmpty_nil, if_pos]
    exact ih (fun r' hr' => h r' (by simp [hr'])) (i + 1)

theorem findTemplateTitledRowAux_match (fields : List FieldSpec)
    (titles : List String) :
    ∀ (rows : List GoRow), rows.any (rowHasTitleMatch titles) = true →
      ∀ i, findTemplateTitledRowAux fields titles i rows =
        (((i + rows.findIdx (rowHasTitleMatch titles) : Nat) : Int),
          rowTemplateCells fields titles
            (rows.getD (rows.findIdx (rowHasTitleMatch titles)) ⟨0, []⟩)) := by
  intro rows
  induction rows with
  | nil => intro h; simp at h
  | cons r rest ih =>
    intro h i
    by_cases hm : rowHasTitleMatch titles r = true
    · have hne : ¬rowTemplateCells fields titles r = [] := by
        intro hcon
        rw [(rowTemplateCells_empty_iff fields titles r).mp hcon] at hm
        exact absurd hm (by simp)
      rw [findTemplateTitledRowAux]
      simp [List.isEmpty_iff, hne, List.findIdx_cons, hm, List.getD]
    · have hm' : rowHasTitleMatch titles r = false := by
        cases hg : rowHasTitleMatch titles r
        · rfl
        · exact absurd hg hm
      have hr : rowTemplateCells fields titles r = [] :=
        (rowTemplateCells_empty_iff fields titles r).mpr hm'
      have hrest : rest.any (rowHasTitleMatch titles) = true := by
        simpa [List.any_cons, hm'] using h
      rw [findTemplateTitledRowAux]
      simp only [hr, List.isEmpty_nil, if_pos]
      rw [ih hrest (i + 1)]
      have harith : (i + 1) + rest.findIdx (rowHasTitleMatch titles) =
          i + (rest.findIdx (rowHasTitleMatch titles) + 1) := by omega
      simp [List.findIdx_cons, hm', harith, List.getD]

/-! ## C1: title-row selection -/

/-- C1: the locator's `titledRowIndex` is the zero-based index of the first
row (top to bottom) containing at least one cell whose text contains some
resolved title as a substring; when no row does, it returns `(-1, [])`, the
location is degenerate (`isValid` false, empty `templateCells`), and
`Write` takes the no-template append path.  The fuzzy match is substring
containment (a cell `"Total (count)"` matches the title `"Total"`, see the
witness). -/
theorem C1_titled_row_selection :
    (∀ (fields : List FieldSpec) (titles : List String) (rows : List GoRow),
      rows.any (rowHasTitleMatch titles) = true →
      findTemplateTitledRow fields titles rows =
        ((rows.findIdx (rowHasTitleMatch titles) : Int),
          rowTemplateCells fields titles
            (rows.getD (rows.findIdx (rowHasTitleMatch titles)) ⟨0, []⟩)) ∧
      (findTemplateTitledRow fields titles rows).2 ≠ []) ∧
    (∀ (fields : List FieldSpec) (titles : List String) (rows : List GoRow),
      (∀ r ∈ rows, rowHasTitleMatch titles r = false) →
      findTemplateTitledRow fields titles rows = (-1, [])) ∧
    (∀ (st : XlsxState) (fields : List FieldSpec) (titles : List String),
      st.hasTemplate = true →
      (∀ r ∈ currentRows st, rowHasTitleMatch titles r = false) →
      locateTitles st fields titles = ⟨-1, (currentRows st).length, [], []⟩ ∧
      (locateTitles st fields titles).isValid = false) ∧
    (∀ (styles : Nat → Bool) (rt : RecordType) (beans : Beans) (st : XlsxState),
      (locateTitles (createSheet rt.ttagSheet st) rt.fields
          (collectTitles rt.fields).1).isValid = false →
      Write styles rt beans st =
        writeNoTemplatePath rt.fields beans
          (if writeTitleFlag (collectTitles rt.fields).2 rt.ttagTitle
              (locateTitles (createSheet rt.ttagSheet st) rt.fields
                (collectTitles rt.fields).1) = true then
            writeTitles rt.fields (collectTitles rt.fields).1
              (createSheet rt.ttagSheet st)
          else createSheet rt.ttagSheet st)) := by
  refine ⟨?_, ?_, ?_, ?_⟩
  · intro fields titles rows h
    have hidx : rows.findIdx (rowHasTitleMatch titles) < rows.length :=
      List.findIdx_lt_length_of_exists (by simpa [List.any_eq_true] using h)
    have hmem : rows.getD (rows.findIdx (rowHasTitleMatch titles)) ⟨0, []⟩ ∈ rows := by
      rw [List.getD_eq_getElem rows ⟨0, []⟩ hidx]
      exact List.getElem_mem hidx
    have hfound : rowHasTitleMatch titles
        (rows.getD (rows.findIdx (rowHasTitleMatch titles)) ⟨0, []⟩) = true := by
      rw [List.getD_eq_getElem rows ⟨0, []⟩ hidx]
      exact List.findIdx_getElem
    have hmain := findTemplateTitledRowAux_match fields titles rows h 0
    constructor
    · simpa [findTemplateTitledRow] using hmain
    · rw [findTemplateTitledRow, hmain]
      intro hcon
      rw [(rowTemplateCells_empty_iff _ _ _).mp hcon] at hfound
      exact absurd hfound (by simp)
  · intro fields titles rows h
    simpa [findTemplateTitledRow] using
      findTemplateTitledRowAux_noMatch fields titles rows h 0
  · intro st fields titles ht h
    have hmain : findTemplateTitledRow fields titles (currentRows st) = (-1, []) := by
      simpa [findTemplateTitledRow] using
        findTemplateTitledRowAux_noMatch fields titles (currentRows st) h 0
    constructor
    · simp [locateTitles, ht, hmain, findTemplateRows]
    · simp [locateTitles, ht, hmain, findTemplateRows, TemplateLocation.isValid]
  · intro styles rt beans st hinv
    rw [Write]
    simp only [hinv, Bool.false_eq_true, if_false]

/-- Witness for C1: the fuzzy substring match — a cell `"Total (count)"`
in the second row matches the resolved title `"Total"`, so
`titledRowIndex = 1`; with no matching cell anywhere the scan returns the
degenerate `(-1, [])`. -/
theorem C1_witness :
    findTemplateTitledRow [⟨"Total", 0, "Total", ""⟩] ["Total"]
      [⟨1, [⟨"A", .str "zzz", none⟩]⟩,
       ⟨2, [⟨"A", .str "Total (count)", none⟩]⟩] =
      (1, [⟨"A", ⟨"Total", 0, "Total", ""⟩⟩]) ∧
    findTemplateTitledRow [⟨"Total", 0, "Total", ""⟩] ["Total"]
      [⟨1, [⟨"A", .str "zzz", none⟩]⟩] = (-1, []) := by
  constructor
  · have h := (C1_titled_row_selection.1 [⟨"Total", 0, "Total", ""⟩] ["Total"]
      [⟨1, [⟨"A", .str "zzz", none⟩]⟩, ⟨2, [⟨"A", .str "Total (count)", none⟩]⟩]
      (by rfl)).1
    rw [h]
    rfl
  · refine C1_titled_row_selection.2.1 [⟨"Total", 0, "Total", ""⟩] ["Total"]
      [⟨1, [⟨"A", .str "zzz", none⟩]⟩] ?_
    intro r hr
    rw [List.mem_singleton] at hr
    rw [hr]
    rfl

/-! ## C7: title matching multiplicity -/

/-- C7 is refuted: the scan keeps no set of already-matched titles.  Here
the single resolved title `"Total"` is matched by both cells of the row,
so `templateCells` carries two entries for one title, contradicting
"every resolved title is matched by at most one cell". -/
theorem C7_counterexample :
    findTemplateTitledRow [⟨"Total", 0, "Total", ""⟩] ["Total"]
      [⟨1, [⟨"A", .str "Total", none⟩, ⟨"B", .str "Total", none⟩]⟩] =
      (0, [⟨"A", ⟨"Total", 0, "Total", ""⟩⟩, ⟨"B", ⟨"Total", 0, "Total", ""⟩⟩]) := by
  rfl

/-- C7 (amended): during the title-row scan each cell is tested against
every title in order — not only the ones unmatched so far — and records at
most one pair, for the first title its text contains; scanning then
continues over the remaining cells of the row, so one resolved title can
be matched by several cells (see the counterexample). -/
theorem C7_amended_matching :
    (∀ (fields : List FieldSpec) (titles : List String) (s col : String),
      findTitleMatch fields titles s col =
        if titles.any (fun t => goContains s t) = true then
          some ⟨col, fields.getD (titles.findIdx (fun t => goContains s t))
            ⟨"", 0, "", ""⟩⟩
        else none) ∧
    (∀ (fields : List FieldSpec) (titles : List String) (row : GoRow),
      rowTemplateCells fields titles row =
        row.cells.filterMap
          (fun cell =>
            findTitleMatch fields titles (cellGetString cell) cell.col)) :=
  ⟨fun fields titles s col => findTitleMatch_eq fields titles s col,
   fun fields titles row => rowTemplateCells_eq_filterMap fields titles row⟩

/-! ## C6: template-row collection -/

theorem findTemplateRowsAux_acc (col : String) :
    ∀ (l acc : List GoRow), acc ≠ [] →
      findTemplateRowsAux col acc l =
        acc ++ l.filter
          (fun r => goContains (cellGetString (rowCell r col)) "template") := by
  intro l
  induction l with
  | nil => intro acc _; simp [findTemplateRowsAux]
  | cons r rest ih =>
    intro acc hacc
    by_cases hm : goContains (cellGetString (rowCell r col)) "template" = true
    · rw [findTemplateRowsAux, if_pos hm, ih (acc ++ [r]) (by simp)]
      simp [List.filter_cons, hm]
    · have hm' : goContains (cellGetString (rowCell r col)) "template" = false := by
        cases hg : goContains (cellGetString (rowCell r col)) "template"
        · rfl
        · exact absurd hg hm
      rw [findTemplateRowsAux, if_neg (by simp [hm']),
        if_neg (by simpa [List.isEmpty_iff] using hacc), ih acc hacc]
      simp [List.filter_cons, hm']

/-- C6 is refuted: the scan below the title row does not stop at the first
non-marker row.  Row 3 lacks the `"template"` marker, yet row 4 (after the
gap) is still collected, so `templateRows` is not the contiguous run the
claim describes. -/
theorem C6_counterexample :
    findTemplateRows 0 [⟨"A", ⟨"Total", 0, "Total", ""⟩⟩]
      [⟨1, [⟨"A", .str "Total", none⟩]⟩,
       ⟨2, [⟨"A", .str "template", none⟩]⟩,
       ⟨3, [⟨"A", .str "data", none⟩]⟩,
       ⟨4, [⟨"A", .str "template", none⟩]⟩] =
      [⟨2, [⟨"A", .str "template", none⟩]⟩,
       ⟨4, [⟨"A", .str "template", none⟩]⟩] := by
  rfl

/-- C6 (amended): when the first row below the title row carries the
`"template"` marker in the marker column, `templateRows` collects every
marker row below the title row — rows after a non-marker gap included, the
scan does not stop there; when the first row below lacks the marker, that
single row alone is returned and no further rows are scanned; with no rows
below the title row the collection is empty (and a negative title index
yields no template rows). -/
theorem C6_template_row_collection :
    (∀ (t : Int) (tcs : List TemplateCellPair) (rows : List GoRow),
      t < 0 → findTemplateRows t tcs rows = []) ∧
    (∀ (t : Int) (tc : TemplateCellPair) (rest' : List TemplateCellPair)
        (rows : List GoRow), 0 ≤ t →
      (rows.drop (t.toNat + 1) = [] →
        findTemplateRows t (tc :: rest') rows = []) ∧
      (∀ (r : GoRow) (rest : List GoRow),
        rows.drop (t.toNat + 1) = r :: rest →
        (goContains (cellGetString (rowCell r tc.cellColumn)) "template" = true →
          findTemplateRows t (tc :: rest') rows =
            (r :: rest).filter
              (fun row =>
                goContains (cellGetString (rowCell row tc.cellColumn)) "template")) ∧
        (goContains (cellGetString (rowCell r tc.cellColumn)) "template" = false →
          findTemplateRows t (tc :: rest') rows = [r]))) := by
  constructor
  · intro t tcs rows ht
    simp only [findTemplateRows, if_pos ht]
  · intro t tc rest' rows ht
    have hneg : ¬t < 0 := by omega
    constructor
    · intro hdrop
      simp only [findTemplateRows, if_neg hneg, hdrop]
      rfl
    · intro r rest hdrop
      constructor
      · intro hm
        simp only [findTemplateRows, if_neg hneg, hdrop]
        rw [findTemplateRowsAux, if_pos hm, List.nil_append,
          findTemplateRowsAux_acc tc.cellColumn rest [r] (by simp)]
        simp [List.filter_cons, hm]
      · intro hm
        simp only [findTemplateRows, if_neg hneg, hdrop]
        rw [findTemplateRowsAux, if_neg (by simp [hm])]
        rfl

/-- Witness for C6 (amended) at concrete inputs: the gap scenario (markers
in rows 2 and 4, data in row 3) and the single-fallback scenario. -/
theorem C6_witness :
    findTemplateRows 0 [⟨"A", ⟨"Total", 0, "Total", ""⟩⟩]
      [⟨1, [⟨"A", .str "Total", none⟩]⟩,
       ⟨2, [⟨"A", .str "template", none⟩]⟩,
       ⟨3, [⟨"A", .str "data", none⟩]⟩,
       ⟨4, [⟨"A", .str "template", none⟩]⟩] =
      List.filter
        (fun row => goContains (cellGetString (rowCell row "A")) "template")
        [⟨2, [⟨"A", .str "template", none⟩]⟩,
         ⟨3, [⟨"A", .str "data", none⟩]⟩,
         ⟨4, [⟨"A", .str "template", none⟩]⟩] ∧
    findTemplateRows 0 [⟨"A", ⟨"Total", 0, "Total", ""⟩⟩]
      [⟨1, [⟨"A", .str "Total", none⟩]⟩,
       ⟨2, [⟨"A", .str "plain", none⟩]⟩,
       ⟨3, [⟨"A", .str "template", none⟩]⟩] =
      [⟨2, [⟨"A", .str "plain", none⟩]⟩] := by
  constructor
  · exact ((C6_template_row_collection.2 0 ⟨"A", ⟨"Total", 0, "Total", ""⟩⟩ []
      [⟨1, [⟨"A", .str "Total", none⟩]⟩,
       ⟨2, [⟨"A", .str "template", none⟩]⟩,
       ⟨3, [⟨"A", .str "data", none⟩]⟩,
       ⟨4, [⟨"A", .str "template", none⟩]⟩] (by decide)).2
      ⟨2, [⟨"A", .str "template", none⟩]⟩
      [⟨3, [⟨"A", .str "data", none⟩]⟩, ⟨4, [⟨"A", .str "template", none⟩]⟩]
      rfl).1 rfl
  · exact ((C6_template_row_collection.2 0 ⟨"A", ⟨"Total", 0, "Total", ""⟩⟩ []
      [⟨1, [⟨"A", .str "Total", none⟩]⟩,
       ⟨2, [⟨"A", .str "plain", none⟩]⟩,
       ⟨3, [⟨"A", .str "template", none⟩]⟩] (by decide)).2
      ⟨2, [⟨"A", .str "plain", none⟩]⟩
      [⟨3, [⟨"A", .str "template", none⟩]⟩] rfl).2 rfl

/-! ## C3: style cycling -/

theorem cellValueIn_def (row : GoRow) (col : String) :
    cellValueIn row col =
      ((lookupCell row.cells col).getD ⟨col, .unset, none⟩).value := by
  rw [cellValueIn, rowCell_eq]

theorem cellSAttrIn_def (row : GoRow) (col : String) :
    cellSAttrIn row col =
      ((lookupCell row.cells col).getD ⟨col, .unset, none⟩).sattr := by
  rw [cellSAttrIn, rowCell_eq]

theorem copyCellStyle_num (styles : Nat → Bool) (ex r : GoRow)
    (tc : TemplateCellPair) : (copyCellStyle styles ex r tc).num = r.num := by
  rw [copyCellStyle]
  cases cellSAttrIn ex tc.cellColumn with
  | none => rfl
  | some id =>
    by_cases h : styles id = true
    · simp [h]
    · simp [h]

theorem cellValueIn_copyCellStyle (styles : Nat → Bool) (ex r : GoRow)
    (tc : TemplateCellPair) (col : String) :
    cellValueIn (copyCellStyle styles ex r tc) col = cellValueIn r col := by
  rw [copyCellStyle]
  cases cellSAttrIn ex tc.cellColumn with
  | none => rfl
  | some id =>
    by_cases h : styles id = true
    · simp [h]
    · simp only [h, Bool.false_eq_true, if_false, cellValueIn_def]
      by_cases hc : col = tc.cellColumn
      · subst hc
        rw [lookupCell_updateCellF_self tc.cellColumn
          (fun c => { c with sattr := some id }) (fun c => rfl) r.cells]
        cases lookupCell r.cells tc.cellColumn <;> rfl
      · rw [lookupCell_updateCellF_other tc.cellColumn col
          (fun c => { c with sattr := some id }) (fun c => rfl) hc r.cells]

theorem cellSAttrIn_copyCellStyle_other (styles : Nat → Bool) (ex r : GoRow)
    (tc : TemplateCellPair) (col : String) (hne : col ≠ tc.cellColumn) :
    cellSAttrIn (copyCellStyle styles ex r tc) col = cellSAttrIn r col := by
  rw [copyCellStyle]
  cases cellSAttrIn ex tc.cellColumn with
  | none => rfl
  | some id =>
    by_cases h : styles id = true
    · simp [h]
    · simp only [h, Bool.false_eq_true, if_false, cellSAttrIn_def]
      rw [lookupCell_updateCellF_other tc.cellColumn col
        (fun c => { c with sattr := some id }) (fun c => rfl) hne r.cells]

theorem cellSAttrIn_copyCellStyle_self (styles : Nat → Bool) (ex r : GoRow)
    (tc : TemplateCellPair) :
    cellSAttrIn (copyCellStyle styles ex r tc) tc.cellColumn =
      match cellSAttrIn ex tc.cellColumn with
      | some id =>
        if styles id then cellSAttrIn r tc.cellColumn else some id
      | none => cellSAttrIn r tc.cellColumn := by
  rw [copyCellStyle]
  cases cellSAttrIn ex tc.cellColumn with
  | none => rfl
  | some id =>
    by_cases h : styles id = true
    · simp [h]
    · simp only [h, Bool.false_eq_true, if_false, cellSAttrIn_def]
      rw [lookupCell_updateCellF_self tc.cellColumn
        (fun c => { c with sattr := some id }) (fun c => rfl) r.cells]
      cases lookupCell r.cells tc.cellColumn <;> rfl

theorem foldl_copyCellStyle_value (styles : Nat → Bool) (ex : GoRow) :
    ∀ (tcs : List TemplateCellPair) (row : GoRow) (col : String),
      cellValueIn (tcs.foldl (copyCellStyle styles ex) row) col =
        cellValueIn row col := by
  intro tcs
  induction tcs with
  | nil => intro row col; rfl
  | cons t rest ih =>
    intro row col
    rw [List.foldl_cons, ih, cellValueIn_copyCellStyle]

theorem foldl_copyCellStyle_num (styles : Nat → Bool) (ex : GoRow) :
    ∀ (tcs : List TemplateCellPair) (row : GoRow),
      (tcs.foldl (copyCellStyle styles ex) row).num = row.num := by
  intro tcs
  induction tcs with
  | nil => intro row; rfl
  | cons t rest ih =>
    intro row
    rw [List.foldl_cons, ih, copyCellStyle_num]

theorem foldl_copyCellStyle_sattr_notin (styles : Nat → Bool) (ex : GoRow) :
    ∀ (tcs : List TemplateCellPair) (row : GoRow) (col : String),
      col ∉ tcs.map (fun tc => tc.cellColumn) →
      cellSAttrIn (tcs.foldl (copyCellStyle styles ex) row) col =
        cellSAttrIn row col := by
  intro tcs
  induction tcs with
  | nil => intro row col _; rfl
  | cons t rest ih =>
    intro row col hnotin
    rw [List.map_cons] at hnotin
    rw [List.foldl_cons, ih _ col (fun hmem => hnotin (by simp [hmem])),
      cellSAttrIn_copyCellStyle_other]
    intro hcon
    exact hnotin (by simp [hcon])

theorem foldl_copyCellStyle_sattr_mem (styles : Nat → Bool) (ex : GoRow) :
    ∀ (tcs : List TemplateCellPair) (row : GoRow),
      (tcs.map (fun tc => tc.cellColumn)).Nodup →
      ∀ tc ∈ tcs,
        cellSAttrIn (tcs.foldl (copyCellStyle styles ex) row) tc.cellColumn =
          match cellSAttrIn ex tc.cellColumn with
          | some id =>
            if styles id then cellSAttrIn row tc.cellColumn else some id
          | none => cellSAttrIn row tc.cellColumn := by
  intro tcs
  induction tcs with
  | nil => intro row _ tc htc; simp at htc
  | cons t rest ih =>
    intro row hnodup tc htc
    rw [List.map_cons, List.nodup_cons] at hnodup
    rcases List.mem_cons.mp htc with heq | hmem
    · subst heq
      rw [List.foldl_cons,
        foldl_copyCellStyle_sattr_notin styles ex rest _ tc.cellColumn hnodup.1,
        cellSAttrIn_copyCellStyle_self]
    · have hne : tc.cellColumn ≠ t.cellColumn := by
        intro hcon
        exact hnodup.1 (hcon ▸ List.mem_map_of_mem (fun x => x.cellColumn) hmem)
      rw [List.foldl_cons, ih _ hnodup.2 tc hmem,
        cellSAttrIn_copyCellStyle_other styles ex row t tc.cellColumn hne]

/-- C3: in template mode, after a record's values are set, styles are
copied onto the new row's matched cells exactly when the post-increment
`rowsWritten` is at least `len(templateRows)`; the exemplar is the template
row at index `(rowsWritten - 1) % len(templateRows)`; matched columns whose
exemplar cell carries no explicit style (or an empty one) are skipped, and
cell values are never touched.  (With 2 template rows, `rowsWritten = 4`
copies from template row index 1 — see the witness.) -/
theorem C3_style_cycling (styles : Nat → Bool) (l : TemplateLocation)
    (n : Nat) (row : GoRow) (hpos : 0 < l.templateRows.length) :
    (n < l.templateRows.length → copyRowStyle styles l n row = row) ∧
    (l.templateRows.length ≤ n →
      (∀ col, cellValueIn (copyRowStyle styles l n row) col = cellValueIn row col) ∧
      (∀ col, col ∉ l.templateCells.map (fun tc => tc.cellColumn) →
        cellSAttrIn (copyRowStyle styles l n row) col = cellSAttrIn row col) ∧
      ((l.templateCells.map (fun tc => tc.cellColumn)).Nodup →
        ∀ tc ∈ l.templateCells,
          cellSAttrIn (copyRowStyle styles l n row) tc.cellColumn =
            match cellSAttrIn
                (l.templateRows.getD ((n - 1) % l.templateRows.length) ⟨0, []⟩)
                tc.cellColumn with
            | some id =>
              if styles id then cellSAttrIn row tc.cellColumn else some id
            | none => cellSAttrIn row tc.cellColumn)) := by
  have hne : l.templateRows.isEmpty = false := by
    cases h : l.templateRows with
    | nil => rw [h] at hpos; simp at hpos
    | cons a b => rfl
  constructor
  · intro hlt
    rw [copyRowStyle, if_pos (by simp [hne, hlt])]
  · intro hge
    have hcond : ¬(l.templateRows.isEmpty || decide (n < l.templateRows.length)) = true := by
      simp [hne]
      omega
    refine ⟨?_, ?_, ?_⟩
    · intro col
      rw [copyRowStyle, if_neg hcond]
      exact foldl_copyCellStyle_value styles _ l.templateCells row col
    · intro col hnotin
      rw [copyRowStyle, if_neg hcond]
      exact foldl_copyCellStyle_sattr_notin styles _ l.templateCells row col hnotin
    · intro hnodup tc htc
      rw [copyRowStyle, if_neg hcond]
      exact foldl_copyCellStyle_sattr_mem styles _ l.templateCells row hnodup tc htc

/-- Witness for C3: two template rows whose marker-column cells carry
styles 10 and 20 (both non-empty); the write with `rowsWritten = 4` copies
from exemplar index `(4-1) % 2 = 1` (style 20), and the write with
`rowsWritten = 1 < 2` copies nothing. -/
theorem C3_witness :
    cellSAttrIn
      (copyRowStyle (fun _ => false)
        ⟨0, 0, [⟨"A", ⟨"Total", 0, "Total", ""⟩⟩],
          [⟨2, [⟨"A", .unset, some 10⟩]⟩, ⟨3, [⟨"A", .unset, some 20⟩]⟩]⟩
        4 ⟨6, [⟨"A", .str "v", none⟩]⟩) "A" = some 20 ∧
    copyRowStyle (fun _ => false)
      ⟨0, 0, [⟨"A", ⟨"Total", 0, "Total", ""⟩⟩],
        [⟨2, [⟨"A", .unset, some 10⟩]⟩, ⟨3, [⟨"A", .unset, some 20⟩]⟩]⟩
      1 ⟨6, [⟨"A", .str "v", none⟩]⟩ = ⟨6, [⟨"A", .str "v", none⟩]⟩ := by
  constructor
  · have h := ((C3_style_cycling (fun _ => false)
      ⟨0, 0, [⟨"A", ⟨"Total", 0, "Total", ""⟩⟩],
        [⟨2, [⟨"A", .unset, some 10⟩]⟩, ⟨3, [⟨"A", .unset, some 20⟩]⟩]⟩
      4 ⟨6, [⟨"A", .str "v", none⟩]⟩ (by simp)).2 (by simp)).2.2
      (by simp) ⟨"A", ⟨"Total", 0, "Total", ""⟩⟩ (by simp)
    rw [h]
    rfl
  · exact (C3_style_cycling (fun _ => false)
      ⟨0, 0, [⟨"A", ⟨"Total", 0, "Total", ""⟩⟩],
        [⟨2, [⟨"A", .unset, some 10⟩]⟩, ⟨3, [⟨"A", .unset, some 20⟩]⟩]⟩
      1 ⟨6, [⟨"A", .str "v", none⟩]⟩ (by simp)).1 (by simp)

/-! ## C2: template-mode row placement -/

theorem setRowCells_structV_eq (rec : Record) :
    ∀ (tcs : List TemplateCellPair) (row : GoRow),
      setRowCells tcs (.structV rec) row =
        some (tcs.foldl (setOneCellValue rec) row) := by
  intro tcs
  induction tcs with
  | nil => intro row; rfl
  | cons t ts ih =>
    intro row
    have ih' := ih (setOneCellValue rec row t)
    simp only [setRowCells] at ih' ⊢
    rw [List.foldlM_cons, List.foldl_cons]
    have hstep :
        (match fieldByIndex (.structV rec) t.structField with
          | none => none
          | some gv =>
            some { row with
                   cells := updateCellF t.cellColumn
                     (fun c =>
                       { c with value := applyCellValue t.structField gv c.value })
                     row.cells }) = some (setOneCellValue rec row t) := rfl
    rw [hstep]
    simpa using ih'

theorem setOneCellValue_num (rec : Record) (row : GoRow) (tc : TemplateCellPair) :
    (setOneCellValue rec row tc).num = row.num := rfl

theorem cellValueIn_setOneCellValue_self (rec : Record) (row : GoRow)
    (tc : TemplateCellPair) :
    cellValueIn (setOneCellValue rec row tc) tc.cellColumn =
      applyCellValue tc.structField (fieldValue rec tc.structField)
        (cellValueIn row tc.cellColumn) := by
  simp only [setOneCellValue, cellValueIn_def]
  rw [lookupCell_updateCellF_self tc.cellColumn
    (fun c =>
      { c with
        value := applyCellValue tc.structField (fieldValue rec tc.structField)
          c.value })
    (fun c => rfl) row.cells]
  cases lookupCell row.cells tc.cellColumn <;> rfl

theorem cellValueIn_setOneCellValue_other (rec : Record) (row : GoRow)
    (tc : TemplateCellPair) (col : String) (hne : col ≠ tc.cellColumn) :
    cellValueIn (setOneCellValue rec row tc) col = cellValueIn row col := by
  simp only [setOneCellValue, cellValueIn_def]
  rw [lookupCell_updateCellF_other tc.cellColumn col
    (fun c =>
      { c with
        value := applyCellValue tc.structField (fieldValue rec tc.structField)
          c.value })
    (fun c => rfl) hne row.cells]

theorem foldl_setOneCellValue_num (rec : Record) :
    ∀ (tcs : List TemplateCellPair) (row : GoRow),
      (tcs.foldl (setOneCellValue rec) row).num = row.num := by
  intro tcs
  induction tcs with
  | nil => intro row; rfl
  | cons t ts ih => intro row; rw [List.foldl_cons, ih, setOneCellValue_num]

theorem foldl_setOneCellValue_notin (rec : Record) :
    ∀ (tcs : List TemplateCellPair) (row : GoRow) (col : String),
      col ∉ tcs.map (fun tc => tc.cellColumn) →
      cellValueIn (tcs.foldl (setOneCellValue rec) row) col = cellValueIn row col := by
  intro tcs
  induction tcs with
  | nil => intro row col _; rfl
  | cons t ts ih =>
    intro row col hnotin
    rw [List.map_cons] at hnotin
    rw [List.foldl_cons, ih _ col (fun hmem => hnotin (by simp [hmem])),
      cellValueIn_setOneCellValue_other]
    intro hcon
    exact hnotin (by simp [hcon])

theorem foldl_setOneCellValue_mem (rec : Record) :
    ∀ (tcs : List TemplateCellPair) (row : GoRow),
      (tcs.map (fun tc => tc.cellColumn)).Nodup →
      ∀ tc ∈ tcs,
        cellValueIn (tcs.foldl (setOneCellValue rec) row) tc.cellColumn =
          applyCellValue tc.structField (fieldValue rec tc.structField)
            (cellValueIn row tc.cellColumn) := by
  intro tcs
  induction tcs with
  | nil => intro row _ tc htc; simp at htc
  | cons t ts ih =>
    intro row hnodup tc htc
    rw [List.map_cons, List.nodup_cons] at hnodup
    rcases List.mem_cons.mp htc with heq | hmem
    · subst heq
      rw [List.foldl_cons,
        foldl_setOneCellValue_notin rec ts _ tc.cellColumn hnodup.1,
        cellValueIn_setOneCellValue_self]
    · have hne : tc.cellColumn ≠ t.cellColumn := by
        intro hcon
        exact hnodup.1 (hcon ▸ List.mem_map_of_mem (fun x => x.cellColumn) hmem)
      rw [List.foldl_cons, ih _ hnodup.2 tc hmem,
        cellValueIn_setOneCellValue_other rec row t tc.cellColumn hne]

theorem copyRowStyle_num (styles : Nat → Bool) (l : TemplateLocation)
    (n : Nat) (row : GoRow) : (copyRowStyle styles l n row).num = row.num := by
  rw [copyRowStyle]
  by_cases h : (l.templateRows.isEmpty || decide (n < l.templateRows.length)) = true
  · rw [if_pos h]
  · rw [if_neg h]
    exact foldl_copyCellStyle_num styles _ l.templateCells row

theorem cellValueIn_copyRowStyle (styles : Nat → Bool) (l : TemplateLocation)
    (n : Nat) (row : GoRow) (col : String) :
    cellValueIn (copyRowStyle styles l n row) col = cellValueIn row col := by
  rw [copyRowStyle]
  by_cases h : (l.templateRows.isEmpty || decide (n < l.templateRows.length)) = true
  · rw [if_pos h]
  · rw [if_neg h]
    exact foldl_copyCellStyle_value styles _ l.templateCells row col

theorem rowCellValue_eq_getD (rows : List GoRow) (num : Int) (col : String) :
    rowCellValue rows num col = cellValueIn ((rowIn rows num).getD ⟨num, []⟩) col := by
  rw [rowCellValue]
  cases rowIn rows num with
  | none => rfl
  | some r => rfl

theorem rowCellValue_of_rowIn {rows : List GoRow} {num : Int} {r : GoRow}
    (h : rowIn rows num = some r) (col : String) :
    rowCellValue rows num col = cellValueIn r col := by
  rw [rowCellValue, h]

theorem rowCellValue_congr {rows rows2 : List GoRow} {num : Int}
    (h : rowIn rows num = rowIn rows2 num) (col : String) :
    rowCellValue rows num col = rowCellValue rows2 num col := by
  rw [rowCellValue, rowCellValue, h]

theorem currentRows_setCurrentRows (st : XlsxState) (rows : List GoRow)
    (hcur : st.current < st.sheets.length) :
    currentRows (setCurrentRows st rows) = rows := by
  simp [currentRows, setCurrentRows, List.getD_eq_getElem?_getD,
    List.getElem?_set_self, hcur]

theorem writeTemplateRow_structV_spec (styles : Nat → Bool)
    (l : TemplateLocation) (rec : Record) (st : XlsxState)
    (hcur : st.current < st.sheets.length) :
    ∃ st', writeTemplateRow styles l (.structV rec) st = some st' ∧
      st'.rowsWritten = st.rowsWritten + 1 ∧
      st'.current = st.current ∧
      st'.hasTemplate = st.hasTemplate ∧
      st'.sheets.length = st.sheets.length ∧
      ((l.templateCells.map (fun tc => tc.cellColumn)).Nodup →
        ∀ tc ∈ l.templateCells,
          rowCellValue (currentRows st')
              (l.titledRowIndex + 2 + st.rowsWritten) tc.cellColumn =
            applyCellValue tc.structField (fieldValue rec tc.structField)
              (rowCellValue (currentRows st)
                (l.titledRowIndex + 2 + st.rowsWritten) tc.cellColumn)) ∧
      (∀ (num : Int) (col : String),
        (num ≠ l.titledRowIndex + 2 + st.rowsWritten ∨
          col ∉ l.templateCells.map (fun tc => tc.cellColumn)) →
        rowCellValue (currentRows st') num col =
          rowCellValue (currentRows st) num col) := by
  have hf : ∀ row, ((setRowCells l.templateCells (.structV rec) row).map
      (copyRowStyle styles l (st.rowsWritten + 1))).isSome := by
    intro row
    rw [setRowCells_structV_eq]
    rfl
  have hnum : ∀ row row',
      ((setRowCells l.templateCells (.structV rec) row).map
        (copyRowStyle styles l (st.rowsWritten + 1))) = some row' →
      row'.num = row.num := by
    intro row row' h
    rw [setRowCells_structV_eq, Option.map_some'] at h
    have := Option.some.inj h
    rw [← this, copyRowStyle_num, foldl_setOneCellValue_num]
  obtain ⟨rows', hup, hself, hother⟩ :=
    updateRowM_spec (l.titledRowIndex + 2 + st.rowsWritten) _ hf hnum
      (currentRows st)
  have htarget : rowIn rows' (l.titledRowIndex + 2 + st.rowsWritten) =
      some (copyRowStyle styles l (st.rowsWritten + 1)
        (l.templateCells.foldl (setOneCellValue rec)
          ((rowIn (currentRows st) (l.titledRowIndex + 2 + st.rowsWritten)).getD
            ⟨l.titledRowIndex + 2 + st.rowsWritten, []⟩))) := by
    rw [hself, setRowCells_structV_eq, Option.map_some']
  refine ⟨setCurrentRows { st with rowsWritten := st.rowsWritten + 1 } rows',
    ?_, rfl, rfl, rfl, ?_, ?_, ?_⟩
  · rw [writeTemplateRow]
    have : currentRows { st with rowsWritten := st.rowsWritten + 1 } =
        currentRows st := rfl
    rw [this, hup, Option.map_some']
  · simp [setCurrentRows]
  · intro hnodup tc htc
    rw [currentRows_setCurrentRows _ _ (by simpa using hcur)]
    rw [rowCellValue_of_rowIn htarget, cellValueIn_copyRowStyle,
      foldl_setOneCellValue_mem rec l.templateCells _ hnodup tc htc,
      rowCellValue_eq_getD]
  · intro num col hor
    rw [currentRows_setCurrentRows _ _ (by simpa using hcur)]
    rcases hor with hne | hnotin
    · exact rowCellValue_congr (hother num hne) col
    · by_cases hne : num = l.titledRowIndex + 2 + st.rowsWritten
      · subst hne
        rw [rowCellValue_of_rowIn htarget, cellValueIn_copyRowStyle,
          foldl_setOneCellValue_notin rec l.templateCells _ col hnotin,
          rowCellValue_eq_getD]
      · exact rowCellValue_congr (hother num hne) col

theorem foldlM_writeTemplateRow_structV (styles : Nat → Bool)
    (l : TemplateLocation) :
    ∀ (rs : List Record) (st : XlsxState), st.current < st.sheets.length →
    ∃ st',
      List.foldlM (fun s v => writeTemplateRow styles l v s) st
        (rs.map BeanValue.structV) = some st' ∧
      st'.rowsWritten = st.rowsWritten + rs.length ∧
      st'.current = st.current ∧
      st'.hasTemplate = st.hasTemplate ∧
      st'.sheets.length = st.sheets.length ∧
      ((l.templateCells.map (fun tc => tc.cellColumn)).Nodup →
        ∀ k, k < rs.length → ∀ tc ∈ l.templateCells,
          rowCellValue (currentRows st')
              (l.titledRowIndex + 2 + ((st.rowsWritten + k : Nat) : Int))
              tc.cellColumn =
            applyCellValue tc.structField (fieldValue (rs.getD k []) tc.structField)
              (rowCellValue (currentRows st)
                (l.titledRowIndex + 2 + ((st.rowsWritten + k : Nat) : Int))
                tc.cellColumn)) ∧
      (∀ (num : Int) (col : String),
        ((∀ k, k < rs.length →
            num ≠ l.titledRowIndex + 2 + ((st.rowsWritten + k : Nat) : Int)) ∨
          col ∉ l.templateCells.map (fun tc => tc.cellColumn)) →
        rowCellValue (currentRows st') num col =
          rowCellValue (currentRows st) num col) := by
  intro rs
  induction rs with
  | nil =>
    intro st hcur
    refine ⟨st, rfl, by simp, rfl, rfl, rfl, ?_, ?_⟩
    · intro _ k hk
      simp at hk
    · intro num col _
      rfl
  | cons r rest ih =>
    intro st hcur
    obtain ⟨st1, hstep, hrw1, hcur1, hhas1, hlen1, hplace1, hframe1⟩ :=
      writeTemplateRow_structV_spec styles l r st hcur
    obtain ⟨st', hloop, hrw, hcur', hhas', hlen', hplace, hframe⟩ :=
      ih st1 (by rw [hcur1, hlen1]; exact hcur)
    have hfold :
        List.foldlM (fun s v => writeTemplateRow styles l v s) st
          ((r :: rest).map BeanValue.structV) = some st' := by
      rw [List.map_cons, List.foldlM_cons, hstep]
      simpa using hloop
    refine ⟨st', hfold, by rw [hrw, hrw1, List.length_cons]; omega,
      by rw [hcur', hcur1], by rw [hhas', hhas1], by rw [hlen', hlen1], ?_, ?_⟩
    · intro hnodup k hk tc htc
      cases k with
      | zero =>
        have htgt : st.rowsWritten + 0 = st.rowsWritten := by omega
        rw [htgt]
        have hfr : rowCellValue (currentRows st')
            (l.titledRowIndex + 2 + (st.rowsWritten : Int)) tc.cellColumn =
            rowCellValue (currentRows st1)
              (l.titledRowIndex + 2 + (st.rowsWritten : Int)) tc.cellColumn := by
          refine hframe _ _ (Or.inl ?_)
          intro k' hk' hcon
          rw [hrw1] at hcon
          have : ((st.rowsWritten : Int)) = ((st.rowsWritten + 1 + k' : Nat) : Int) := by
            omega
          push_cast at this
          omega
        rw [hfr]
        have := hplace1 hnodup tc htc
        simpa using this
      | succ k' =>
        have hk'' : k' < rest.length := by simpa using hk
        have htgt : st.rowsWritten + (k' + 1) = st1.rowsWritten + k' := by
          rw [hrw1]; omega
        rw [htgt]
        have hmain := hplace hnodup k' hk'' tc htc
        rw [hmain]
        have hgd : rest.getD k' [] = (r :: rest).getD (k' + 1) [] := by
          simp [List.getD]
        rw [hgd]
        have hfr : rowCellValue (currentRows st1)
            (l.titledRowIndex + 2 + ((st1.rowsWritten + k' : Nat) : Int)) tc.cellColumn =
            rowCellValue (currentRows st)
              (l.titledRowIndex + 2 + ((st1.rowsWritten + k' : Nat) : Int)) tc.cellColumn := by
          refine hframe1 _ _ (Or.inl ?_)
          intro hcon
          rw [hrw1] at hcon
          have : ((st.rowsWritten + 1 + k' : Nat) : Int) = (st.rowsWritten : Int) := by
            omega
          push_cast at this
          omega
        rw [hfr]
    · intro num col hor
      rcases hor with hleft | hright
      · have h1 : rowCellValue (currentRows st') num col =
            rowCellValue (currentRows st1) num col := by
          refine hframe num col (Or.inl ?_)
          intro k' hk' hcon
          have := hleft (k' + 1) (by simpa using Nat.succ_lt_succ hk')
          rw [hrw1] at hcon
          apply this
          rw [hcon]
          congr 1
          omega
        have h2 : rowCellValue (currentRows st1) num col =
            rowCellValue (currentRows st) num col := by
          refine hframe1 num col (Or.inl ?_)
          intro hcon
          have := hleft 0 (by simp)
          apply this
          rw [hcon]
          simp
        rw [h1, h2]
      · rw [hframe num col (Or.inr hright), hframe1 num col (Or.inr hright)]

theorem currentRows_resetRowsWritten (st : XlsxState) :
    currentRows { st with rowsWritten := 0 } = currentRows st := rfl

/-- C2: a template-mode write call first resets `rowsWritten` to zero;
the k-th record (k = 0, 1, ...) is then written into the 1-based sheet row
numbered `titledRowIndex + 2 + k` (one counter increment per record, so
the final counter equals the record count independently of its value
before the call), and only the cells in the columns recorded in
`templateCells` are set — every other row/column cell keeps its previous
value, so fields with no matched column are silently skipped. -/
theorem C2_template_row_placement (styles : Nat → Bool) (l : TemplateLocation)
    (rs : List Record) (st : XlsxState)
    (hnodup : (l.templateCells.map (fun tc => tc.cellColumn)).Nodup)
    (hcur : st.current < st.sheets.length) :
    ∃ st', writeTemplateLoop styles l (.many (rs.map .structV)) st = some st' ∧
      st'.rowsWritten = rs.length ∧
      (∀ k, k < rs.length → ∀ tc ∈ l.templateCells,
        rowCellValue (currentRows st') (l.titledRowIndex + 2 + (k : Int))
            tc.cellColumn =
          applyCellValue tc.structField (fieldValue (rs.getD k []) tc.structField)
            (rowCellValue (currentRows st) (l.titledRowIndex + 2 + (k : Int))
              tc.cellColumn)) ∧
      (∀ (num : Int) (col : String),
        ((∀ k, k < rs.length → num ≠ l.titledRowIndex + 2 + (k : Int)) ∨
          col ∉ l.templateCells.map (fun tc => tc.cellColumn)) →
        rowCellValue (currentRows st') num col =
          rowCellValue (currentRows st) num col) := by
  obtain ⟨st', hloop, hrw, hcur', hhas', hlen', hplace, hframe⟩ :=
    foldlM_writeTemplateRow_structV styles l rs { st with rowsWritten := 0 } hcur
  refine ⟨st', hloop, by rw [hrw]; simp, ?_, ?_⟩
  · intro k hk tc htc
    have h := hplace hnodup k hk tc htc
    rw [currentRows_resetRowsWritten] at h
    simpa using h
  · intro num col hor
    have h := hframe num col ?_
    · rw [currentRows_resetRowsWritten] at h
      exact h
    · rcases hor with hleft | hright
      · refine Or.inl (fun k hk => ?_)
        have := hleft k hk
        simpa using this
      · exact Or.inr hright

/-- Witness for C2: a template located at title row 0 with one matched
column `A`; two records land in rows 2 and 3, and the counter ends at 2
although it was 7 before the call. -/
theorem C2_witness :
    ∃ st', writeTemplateLoop (fun _ => false)
        ⟨0, 2, [⟨"A", ⟨"Total", 0, "Total", ""⟩⟩],
          [⟨2, [⟨"A", .str "template", none⟩]⟩]⟩
        (.many ([[GoValue.strV "x"], [GoValue.strV "y"]].map BeanValue.structV))
        ⟨[⟨"S", [⟨1, [⟨"A", .str "Total", none⟩]⟩,
            ⟨2, [⟨"A", .str "template", none⟩]⟩]⟩], 0, 7, true⟩ = some st' ∧
      st'.rowsWritten = 2 ∧
      rowCellValue (currentRows st') 2 "A" = .str "x" ∧
      rowCellValue (currentRows st') 3 "A" = .str "y" := by
  obtain ⟨st', h1, h2, h3, _⟩ := C2_template_row_placement (fun _ => false)
    ⟨0, 2, [⟨"A", ⟨"Total", 0, "Total", ""⟩⟩],
      [⟨2, [⟨"A", .str "template", none⟩]⟩]⟩
    [[GoValue.strV "x"], [GoValue.strV "y"]]
    ⟨[⟨"S", [⟨1, [⟨"A", .str "Total", none⟩]⟩,
        ⟨2, [⟨"A", .str "template", none⟩]⟩]⟩], 0, 7, true⟩
    (by simp) (by decide)
  refine ⟨st', h1, h2, ?_, ?_⟩
  · have h := h3 0 (by decide) ⟨"A", ⟨"Total", 0, "Total", ""⟩⟩ (by simp)
    have he : (⟨0, 2, [⟨"A", ⟨"Total", 0, "Total", ""⟩⟩],
        [⟨2, [⟨"A", .str "template", none⟩]⟩]⟩ : TemplateLocation).titledRowIndex
        + 2 + ((0 : Nat) : Int) = (2 : Int) := by decide
    rw [he] at h
    rw [h]
    rfl
  · have h := h3 1 (by decide) ⟨"A", ⟨"Total", 0, "Total", ""⟩⟩ (by simp)
    have he : (⟨0, 2, [⟨"A", ⟨"Total", 0, "Total", ""⟩⟩],
        [⟨2, [⟨"A", .str "template", none⟩]⟩]⟩ : TemplateLocation).titledRowIndex
        + 2 + ((1 : Nat) : Int) = (3 : Int) := by decide
    rw [he] at h
    rw [h]
    rfl

/-! ## C4: layout finalization -/

/-- C4: at the end of a template-mode write call with non-empty
`templateRows`, writing the records of `rs` leaves `rowsWritten =
rs.length`, and the final `removeTempleRows` truncates the current sheet's
row collection to exactly `endIndex = titledRowIndex + 1 + rowsWritten`
rows when it holds more (in particular, an empty record sequence keeps
only the rows up to the title row), and leaves the sheet unchanged
otherwise. -/
theorem C4_layout_finalization (styles : Nat → Bool) (l : TemplateLocation)
    (rs : List Record) (st : XlsxState)
    (hne : l.templateRows ≠ []) (ht : 0 ≤ l.titledRowIndex)
    (hcur : st.current < st.sheets.length) :
    ∃ st', writeTemplateLoop styles l (.many (rs.map .structV)) st = some st' ∧
      writeTemplatePath styles l (.many (rs.map .structV)) st =
        some (removeTempleRows l st') ∧
      st'.rowsWritten = rs.length ∧
      ((l.titledRowIndex + 1 + (rs.length : Int) < ((currentRows st').length : Int) →
        currentRows (removeTempleRows l st') =
          (currentRows st').take (l.titledRowIndex + 1 + (rs.length : Int)).toNat ∧
        (((currentRows (removeTempleRows l st')).length : Int) =
          l.titledRowIndex + 1 + (rs.length : Int))) ∧
      (¬(l.titledRowIndex + 1 + (rs.length : Int) < ((currentRows st').length : Int)) →
        removeTempleRows l st' = st')) := by
  obtain ⟨st', hloop, hrw, hcur', hhas', hlen', _, _⟩ :=
    foldlM_writeTemplateRow_structV styles l rs { st with rowsWritten := 0 } hcur
  have hrw' : st'.rowsWritten = rs.length := by rw [hrw]; simp
  have hcur'' : st'.current < st'.sheets.length := by
    rw [hcur', hlen']
    exact hcur
  have hemp : l.templateRows.isEmpty = false := by
    cases hl : l.templateRows with
    | nil => exact absurd hl hne
    | cons a b => rfl
  refine ⟨st', hloop, ?_, hrw', ?_, ?_⟩
  · rw [writeTemplatePath, writeTemplateLoop] at *
    rw [hloop, Option.map_some']
  · intro hlt
    have hcond : (l.titledRowIndex + 1 + (st'.rowsWritten : Int) <
        ((currentRows st').length : Int)) := by
      rw [hrw']
      exact hlt
    have hres : removeTempleRows l st' =
        setCurrentRows st'
          ((currentRows st').take (l.titledRowIndex + 1 + (st'.rowsWritten : Int)).toNat) := by
      rw [removeTempleRows]
      rw [if_neg (by simp [hemp])]
      rw [if_pos hcond]
    constructor
    · rw [hres, currentRows_setCurrentRows _ _ hcur'', hrw']
    · rw [hres, currentRows_setCurrentRows _ _ hcur'', hrw']
      rw [List.length_take]
      have h0 : 0 ≤ l.titledRowIndex + 1 + (rs.length : Int) := by omega
      have hle : (l.titledRowIndex + 1 + (rs.length : Int)).toNat ≤
          (currentRows st').length := by omega
      omega
  · intro hge
    rw [removeTempleRows]
    rw [if_neg (by simp [hemp])]
    rw [if_neg (by rw [hrw']; exact hge)]

/-- Witness for C4: a template sheet with a title row and two marker rows;
writing an empty record sequence truncates everything below the title row
(`endIndex = 0 + 1 + 0 = 1`). -/
theorem C4_witness :
    ∃ st', writeTemplatePath (fun _ => false)
        ⟨0, 3, [⟨"A", ⟨"Total", 0, "Total", ""⟩⟩],
          [⟨2, [⟨"A", .str "template", none⟩]⟩, ⟨3, [⟨"A", .str "template", none⟩]⟩]⟩
        (.many (([] : List Record).map BeanValue.structV))
        ⟨[⟨"S", [⟨1, [⟨"A", .str "Total", none⟩]⟩,
            ⟨2, [⟨"A", .str "template", none⟩]⟩,
            ⟨3, [⟨"A", .str "template", none⟩]⟩]⟩], 0, 7, true⟩ = some st' ∧
      currentRows st' = [⟨1, [⟨"A", .str "Total", none⟩]⟩] := by
  obtain ⟨st', hloop, hpath, hrw, htrunc, _⟩ := C4_layout_finalization
    (fun _ => false)
    ⟨0, 3, [⟨"A", ⟨"Total", 0, "Total", ""⟩⟩],
      [⟨2, [⟨"A", .str "template", none⟩]⟩, ⟨3, [⟨"A", .str "template", none⟩]⟩]⟩
    ([] : List Record)
    ⟨[⟨"S", [⟨1, [⟨"A", .str "Total", none⟩]⟩,
        ⟨2, [⟨"A", .str "template", none⟩]⟩,
        ⟨3, [⟨"A", .str "template", none⟩]⟩]⟩], 0, 7, true⟩
    (by simp) (by decide) (by decide)
  have hst' : st' = ⟨[⟨"S", [⟨1, [⟨"A", .str "Total", none⟩]⟩,
      ⟨2, [⟨"A", .str "template", none⟩]⟩,
      ⟨3, [⟨"A", .str "template", none⟩]⟩]⟩], 0, 0, true⟩ := by
    have : writeTemplateLoop (fun _ => false)
        ⟨0, 3, [⟨"A", ⟨"Total", 0, "Total", ""⟩⟩],
          [⟨2, [⟨"A", .str "template", none⟩]⟩, ⟨3, [⟨"A", .str "template", none⟩]⟩]⟩
        (.many (([] : List Record).map BeanValue.structV))
        ⟨[⟨"S", [⟨1, [⟨"A", .str "Total", none⟩]⟩,
            ⟨2, [⟨"A", .str "template", none⟩]⟩,
            ⟨3, [⟨"A", .str "template", none⟩]⟩]⟩], 0, 7, true⟩ =
        some ⟨[⟨"S", [⟨1, [⟨"A", .str "Total", none⟩]⟩,
            ⟨2, [⟨"A", .str "template", none⟩]⟩,
            ⟨3, [⟨"A", .str "template", none⟩]⟩]⟩], 0, 0, true⟩ := rfl
    rw [this] at hloop
    exact (Option.some.inj hloop).symm
  rw [hst'] at htrunc hpath
  refine ⟨_, hpath, ?_⟩
  have h := (htrunc (by decide)).1
  rw [h]
  rfl

/-! ## C9: pointer transparency (code bug) -/

/-- C9 records a code bug: `Write` dereferences a pointer argument only at
the *type* level (lines 79-81 adjust `beanType`), never at the value
level, so `setCellValue`'s `value.FieldByIndex` runs on a pointer
`reflect.Value` and panics (`reflect.Value.Field` requires a struct kind).
Writing the same record directly succeeds.  The repository's own test
suite expects `x.Write(&src)` to succeed, so the spec states the intent
and the code is the slip. -/
theorem C9_pointer_write_panics :
    Write (fun _ => false) ⟨[⟨"Total", 0, "", ""⟩], "", ""⟩
      (.one (.ptrV [.strV "v"])) ⟨[], 0, 0, false⟩ = none ∧
    Write (fun _ => false) ⟨[⟨"Total", 0, "", ""⟩], "", ""⟩
      (.one (.structV [.strV "v"])) ⟨[], 0, 0, false⟩ =
      some ⟨[⟨"Sheet 1", [⟨1, [⟨"A", .str "v", none⟩]⟩]⟩], 0, 0, false⟩ :=
  ⟨rfl, rfl⟩

/-! ## C5: title-row emission -/

/-- C5 is refuted: the record type has a customized field title (`"T1"`)
and an empty type-level title tag, so the claim predicts a title row; but
the template location is valid (row 1 of the template sheet matches
`"T1"`), `Write` forces `customizedTitle` to false (source line 90) and
emits no title row — the sheet keeps its two rows, the record being
written into row 2 in place. -/
theorem C5_counterexample :
    (collectTitles [⟨"Total", 0, "T1", ""⟩]).2 = true ∧
    Write (fun _ => false) ⟨[⟨"Total", 0, "T1", ""⟩], "", ""⟩
      (.many [.structV [.strV "v"]])
      ⟨[⟨"Sheet 1", [⟨1, [⟨"A", .str "T1", none⟩]⟩,
          ⟨2, [⟨"A", .str "x", none⟩]⟩]⟩], 0, 7, true⟩ =
      some ⟨[⟨"Sheet 1", [⟨1, [⟨"A", .str "T1", none⟩]⟩,
          ⟨2, [⟨"A", .str "v", none⟩]⟩]⟩], 0, 1, true⟩ :=
  ⟨rfl, rfl⟩

theorem setCurrentRows_frame (st : XlsxState) (rows : List GoRow) :
    (setCurrentRows st rows).current = st.current ∧
    (setCurrentRows st rows).sheets.length = st.sheets.length ∧
    (setCurrentRows st rows).hasTemplate = st.hasTemplate ∧
    (setCurrentRows st rows).rowsWritten = st.rowsWritten ∧
    (∀ i, i ≠ st.current →
      (setCurrentRows st rows).sheets.getD i ⟨"", []⟩ =
        st.sheets.getD i ⟨"", []⟩) := by
  refine ⟨rfl, by simp [setCurrentRows], rfl, rfl, ?_⟩
  intro i hi
  simp only [setCurrentRows]
  rw [List.getD_eq_getElem?_getD,
    List.getElem?_set_ne (fun hcon => hi hcon.symm),
    List.getD_eq_getElem?_getD]

theorem set_append_length {α : Type} (l : List α) (x y : α) :
    (l ++ [x]).set l.length y = l ++ [y] := by
  induction l with
  | nil => rfl
  | cons a rest ih => simp [List.set, ih]

theorem getD_append_length {α : Type} (l : List α) (x d : α) :
    (l ++ [x]).getD l.length d = x := by
  rw [List.getD_eq_getElem?_getD,
    List.getElem?_append_right (Nat.le_refl l.length)]
  simp

theorem createSheet_noTemplate_eq (name : String) (st : XlsxState)
    (h : st.hasTemplate = false) :
    ∃ nm, createSheet name st =
      { st with sheets := st.sheets ++ [⟨nm, []⟩],
                current := st.sheets.length } := by
  rw [createSheet, if_neg (by simp [h])]
  simp only [h, Bool.false_and, Bool.false_eq_true, if_false]
  split
  · refine ⟨name, ?_⟩
    rw [getD_append_length, set_append_length]
  · exact ⟨"Sheet " ++ toString (st.sheets.length + 1), rfl⟩

theorem createSheet_noTemplate (name : String) (st : XlsxState)
    (h : st.hasTemplate = false) :
    (createSheet name st).hasTemplate = false ∧
    (createSheet name st).rowsWritten = st.rowsWritten ∧
    (createSheet name st).current = st.sheets.length ∧
    (createSheet name st).sheets.length = st.sheets.length + 1 ∧
    currentRows (createSheet name st) = [] ∧
    (∀ i, i < st.sheets.length →
      (createSheet name st).sheets.getD i ⟨"", []⟩ =
        st.sheets.getD i ⟨"", []⟩) := by
  obtain ⟨nm, he⟩ := createSheet_noTemplate_eq name st h
  rw [he]
  refine ⟨h, rfl, rfl, by simp, ?_, ?_⟩
  · rw [currentRows]
    simp only
    rw [getD_append_length]
  · intro i hi
    simp only
    rw [List.getD_append _ _ _ _ hi]

theorem writeTitles_spec (fields : List FieldSpec) (titles : List String)
    (st : XlsxState) (hcur : st.current < st.sheets.length) :
    (writeTitles fields titles st).current = st.current ∧
    (writeTitles fields titles st).sheets.length = st.sheets.length ∧
    (writeTitles fields titles st).hasTemplate = st.hasTemplate ∧
    (writeTitles fields titles st).rowsWritten = st.rowsWritten ∧
    currentRows (writeTitles fields titles st) =
      currentRows st ++ [titleRowAt (maxRowNum (currentRows st)) fields titles] ∧
    (∀ i, i ≠ st.current →
      (writeTitles fields titles st).sheets.getD i ⟨"", []⟩ =
        st.sheets.getD i ⟨"", []⟩) := by
  obtain ⟨h1, h2, h3, h4, h5⟩ := setCurrentRows_frame st
    (currentRows st ++ [titleRowAt (maxRowNum (currentRows st)) fields titles])
  exact ⟨h1, h2, h3, h4,
    currentRows_setCurrentRows st _ hcur, h5⟩

theorem maxRowNum_append_one (rows : List GoRow) (row : GoRow) :
    maxRowNum (rows ++ [row]) = max (maxRowNum rows) row.num := by
  simp [maxRowNum, List.foldl_append]

theorem writeRowCells_structV (rec : Record) :
    ∀ (fields : List FieldSpec) (row : GoRow),
      writeRowCells fields (.structV rec) row =
        some ⟨row.num, row.cells ++ mkRecordCells rec row.cells.length fields⟩ := by
  intro fields
  induction fields with
  | nil => intro row; simp [writeRowCells, mkRecordCells]
  | cons f fs ih =>
    intro row
    rw [writeRowCells, List.foldlM_cons]
    have hstep :
        (match setCellValue f (.structV rec)
            ⟨colLetter row.cells.length, .unset, none⟩ with
          | none => none
          | some c => some { row with cells := row.cells ++ [c] }) =
        some (⟨row.num, row.cells ++
          [⟨colLetter row.cells.length,
            applyCellValue f (fieldValue rec f) .unset, none⟩]⟩ : GoRow) := rfl
    rw [hstep]
    have ih' := ih ⟨row.num, row.cells ++
      [⟨colLetter row.cells.length,
        applyCellValue f (fieldValue rec f) .unset, none⟩]⟩
    rw [writeRowCells] at ih'
    simp only [List.length_append, List.length_singleton] at ih'
    rw [mkRecordCells]
    simpa [List.append_assoc] using ih'

theorem writeRow_structV (fields : List FieldSpec) (rec : Record)
    (st : XlsxState) :
    writeRow fields (.structV rec) st =
      some (setCurrentRows st
        (currentRows st ++
          [⟨maxRowNum (currentRows st) + 1, mkRecordCells rec 0 fields⟩])) := by
  rw [writeRow, writeRowCells_structV, Option.map_some']
  rfl

theorem foldlM_writeRow_structV (fields : List FieldSpec) :
    ∀ (rs : List Record) (st : XlsxState), st.current < st.sheets.length →
    ∃ st', List.foldlM (fun s v => writeRow fields v s) st (rs.map .structV) =
        some st' ∧
      st'.current = st.current ∧
      st'.sheets.length = st.sheets.length ∧
      st'.hasTemplate = st.hasTemplate ∧
      st'.rowsWritten = st.rowsWritten ∧
      currentRows st' =
        currentRows st ++ recordRowsFrom fields (maxRowNum (currentRows st)) rs ∧
      (∀ i, i ≠ st.current →
        st'.sheets.getD i ⟨"", []⟩ = st.sheets.getD i ⟨"", []⟩) := by
  intro rs
  induction rs with
  | nil =>
    intro st hcur
    exact ⟨st, rfl, rfl, rfl, rfl, rfl, by simp [recordRowsFrom], fun i _ => rfl⟩
  | cons r rest ih =>
    intro st hcur
    obtain ⟨hc1, hl1, hh1, hw1, hf1⟩ := setCurrentRows_frame st
      (currentRows st ++
        [⟨maxRowNum (currentRows st) + 1, mkRecordCells r 0 fields⟩])
    obtain ⟨st', hloop, hc', hl', hh', hw', hrows', hf'⟩ :=
      ih (setCurrentRows st
        (currentRows st ++
          [⟨maxRowNum (currentRows st) + 1, mkRecordCells r 0 fields⟩]))
        (by rw [hc1, hl1]; exact hcur)
    refine ⟨st', ?_, by rw [hc', hc1], by rw [hl', hl1], by rw [hh', hh1],
      by rw [hw', hw1], ?_, ?_⟩
    · rw [List.map_cons, List.foldlM_cons, writeRow_structV]
      simpa using hloop
    · rw [hrows', currentRows_setCurrentRows st _ hcur,
        maxRowNum_append_one]
      simp only
      have hmax : max (maxRowNum (currentRows st)) (maxRowNum (currentRows st) + 1) =
          maxRowNum (currentRows st) + 1 := by omega
      rw [hmax, recordRowsFrom, List.append_assoc]
      rfl
    · intro i hi
      rw [hf' i (by rw [hc1]; exact hi), hf1 i hi]

theorem locateTitles_noTemplate (st : XlsxState) (fields : List FieldSpec)
    (titles : List String) (h : st.hasTemplate = false) :
    locateTitles st fields titles = ⟨0, 0, [], []⟩ := by
  rw [locateTitles, if_pos (by simp [h])]

theorem Write_noTemplate_eq (styles : Nat → Bool) (rt : RecordType)
    (beans : Beans) (st : XlsxState) (h : st.hasTemplate = false) :
    Write styles rt beans st =
      writeNoTemplatePath rt.fields beans
        (if ((collectTitles rt.fields).2 || rt.ttagTitle ≠ "" : Bool) = true then
          writeTitles rt.fields (collectTitles rt.fields).1
            (createSheet rt.ttagSheet st)
        else createSheet rt.ttagSheet st) := by
  have h1 : (createSheet rt.ttagSheet st).hasTemplate = false :=
    (createSheet_noTemplate rt.ttagSheet st h).1
  rw [Write]
  rw [locateTitles_noTemplate _ _ _ h1]
  have hvalid : (⟨0, 0, [], []⟩ : TemplateLocation).isValid = false := rfl
  simp only [hvalid, Bool.false_eq_true, if_false, writeTitleFlag,
    Bool.not_false, Bool.and_true]

/-! ## C5: title-row emission theorem -/

/-- C5 (amended): a title row is emitted if and only if either the titles
are customized AND the template location is invalid, or the type-level
`title` tag is non-empty.  First part: with a valid template location and
an empty type-level tag, `Write` goes straight to the template path with
no title write, even when field titles are customized (the flaw in the
original claim — see the counterexample).  Second part: on an instance
without a template the location is always invalid, so a title row is
written exactly when titles are customized or the type-level tag is
non-empty, followed by one row per record — with neither, the first
written row is the first record (numbered 1). -/
theorem C5_title_row_emission :
    (∀ (styles : Nat → Bool) (rt : RecordType) (beans : Beans) (st : XlsxState),
      (locateTitles (createSheet rt.ttagSheet st) rt.fields
          (collectTitles rt.fields).1).isValid = true →
      Write styles rt beans st =
        writeTemplatePath styles
          (locateTitles (createSheet rt.ttagSheet st) rt.fields
            (collectTitles rt.fields).1)
          beans
          (if (rt.ttagTitle ≠ "" : Bool) = true then
            writeTitles rt.fields (collectTitles rt.fields).1
              (createSheet rt.ttagSheet st)
          else createSheet rt.ttagSheet st)) ∧
    (∀ (styles : Nat → Bool) (rt : RecordType) (rs : List Record) (st : XlsxState),
      st.hasTemplate = false →
      ∃ st', Write styles rt (.many (rs.map .structV)) st = some st' ∧
        currentRows st' =
          (if ((collectTitles rt.fields).2 || rt.ttagTitle ≠ "" : Bool) = true then
            [titleRowAt 0 rt.fields (collectTitles rt.fields).1]
          else []) ++
          recordRowsFrom rt.fields
            (if ((collectTitles rt.fields).2 || rt.ttagTitle ≠ "" : Bool) = true
              then 1 else 0) rs) := by
  constructor
  · intro styles rt beans st hv
    rw [Write]
    simp only [hv, if_pos, writeTitleFlag, Bool.not_true, Bool.and_false,
      Bool.false_or]
  · intro styles rt rs st h
    obtain ⟨hT, hW, hC, hL, hR, hF⟩ := createSheet_noTemplate rt.ttagSheet st h
    have hcur1 : (createSheet rt.ttagSheet st).current <
        (createSheet rt.ttagSheet st).sheets.length := by
      rw [hC, hL]
      omega
    rw [Write_noTemplate_eq styles rt _ st h]
    by_cases hflag : ((collectTitles rt.fields).2 || rt.ttagTitle ≠ "" : Bool) = true
    · rw [if_pos hflag]
      obtain ⟨ht1, ht2, ht3, ht4, ht5, ht6⟩ :=
        writeTitles_spec rt.fields (collectTitles rt.fields).1
          (createSheet rt.ttagSheet st) hcur1
      obtain ⟨st', hloop, _, _, _, _, hrows, _⟩ :=
        foldlM_writeRow_structV rt.fields rs
          (writeTitles rt.fields (collectTitles rt.fields).1
            (createSheet rt.ttagSheet st))
          (by rw [ht1, ht2]; exact hcur1)
      refine ⟨st', ?_, ?_⟩
      · rw [writeNoTemplatePath]
        exact hloop
      · rw [hrows, ht5, hR]
        simp only [hflag, if_true, List.nil_append, eq_self_iff_true]
        have hmax : maxRowNum [titleRowAt (maxRowNum ([] : List GoRow))
            rt.fields (collectTitles rt.fields).1] = 1 := rfl
        rw [hmax]
        rfl
    · have hflag' : ((collectTitles rt.fields).2 || rt.ttagTitle ≠ "" : Bool) = false := by
        cases hg : ((collectTitles rt.fields).2 || rt.ttagTitle ≠ "" : Bool)
        · rfl
        · exact absurd hg hflag
      rw [if_neg hflag]
      obtain ⟨st', hloop, _, _, _, _, hrows, _⟩ :=
        foldlM_writeRow_structV rt.fields rs (createSheet rt.ttagSheet st) hcur1
      refine ⟨st', ?_, ?_⟩
      · rw [writeNoTemplatePath]
        exact hloop
      · rw [hrows, hR]
        simp only [hflag', Bool.false_eq_true, if_false, List.nil_append]
        rfl

/-- Witness for C5: a record type with one field, no field titles and no
type-level title, written on a fresh no-template instance: no title row,
the single record becomes row 1; and the template-suppression part applied
at the counterexample scenario (customized titles, valid location, empty
type tag — the write goes straight to the template path, skipping the
title write). -/
theorem C5_witness :
    (∃ st', Write (fun _ => false) ⟨[⟨"Total", 0, "", ""⟩], "", ""⟩
        (.many ([[GoValue.intV 100]].map BeanValue.structV)) ⟨[], 0, 0, false⟩ =
        some st' ∧
      currentRows st' =
        [⟨1, [⟨"A", .number ((100 : Int) : Rat), none⟩]⟩]) ∧
    Write (fun _ => false) ⟨[⟨"Total", 0, "T1", ""⟩], "", ""⟩
      (.many [.structV [.strV "v"]])
      ⟨[⟨"Sheet 1", [⟨1, [⟨"A", .str "T1", none⟩]⟩,
          ⟨2, [⟨"A", .str "x", none⟩]⟩]⟩], 0, 7, true⟩ =
      writeTemplatePath (fun _ => false)
        (locateTitles
          (createSheet ""
            ⟨[⟨"Sheet 1", [⟨1, [⟨"A", .str "T1", none⟩]⟩,
                ⟨2, [⟨"A", .str "x", none⟩]⟩]⟩], 0, 7, true⟩)
          [⟨"Total", 0, "T1", ""⟩]
          (collectTitles [⟨"Total", 0, "T1", ""⟩]).1)
        (.many [.structV [.strV "v"]])
        (createSheet ""
          ⟨[⟨"Sheet 1", [⟨1, [⟨"A", .str "T1", none⟩]⟩,
              ⟨2, [⟨"A", .str "x", none⟩]⟩]⟩], 0, 7, true⟩) := by
  constructor
  · obtain ⟨st', h1, h2⟩ := C5_title_row_emission.2 (fun _ => false)
      ⟨[⟨"Total", 0, "", ""⟩], "", ""⟩ [[GoValue.intV 100]] ⟨[], 0, 0, false⟩ rfl
    refine ⟨st', h1, ?_⟩
    rw [h2]
    rfl
  · have h := C5_title_row_emission.1 (fun _ => false)
      ⟨[⟨"Total", 0, "T1", ""⟩], "", ""⟩ (.many [.structV [.strV "v"]])
      ⟨[⟨"Sheet 1", [⟨1, [⟨"A", .str "T1", none⟩]⟩,
          ⟨2, [⟨"A", .str "x", none⟩]⟩]⟩], 0, 7, true⟩ (by rfl)
    rw [h]
    rfl

/-! ## C10: a brand-new sheet per write on template-free instances -/

theorem writeRow_frame (fields : List FieldSpec) (v : BeanValue)
    (st st' : XlsxState) (h : writeRow fields v st = some st') :
    st'.current = st.current ∧ st'.sheets.length = st.sheets.length ∧
    st'.hasTemplate = st.hasTemplate ∧ st'.rowsWritten = st.rowsWritten ∧
    (∀ i, i ≠ st.current →
      st'.sheets.getD i ⟨"", []⟩ = st.sheets.getD i ⟨"", []⟩) := by
  rw [writeRow] at h
  cases hw : writeRowCells fields v ⟨maxRowNum (currentRows st) + 1, []⟩ with
  | none => rw [hw] at h; exact absurd h (by simp)
  | some row =>
    rw [hw, Option.map_some'] at h
    have := Option.some.inj h
    rw [← this]
    exact setCurrentRows_frame st _

theorem foldlM_writeRow_frame (fields : List FieldSpec) :
    ∀ (vs : List BeanValue) (st st' : XlsxState),
      List.foldlM (fun s v => writeRow fields v s) st vs = some st' →
      st'.current = st.current ∧ st'.sheets.length = st.sheets.length ∧
      st'.hasTemplate = st.hasTemplate ∧
      (∀ i, i ≠ st.current →
        st'.sheets.getD i ⟨"", []⟩ = st.sheets.getD i ⟨"", []⟩) := by
  intro vs
  induction vs with
  | nil =>
    intro st st' h
    have := Option.some.inj h
    rw [← this]
    exact ⟨rfl, rfl, rfl, fun i _ => rfl⟩
  | cons v rest ih =>
    intro st st' h
    rw [List.foldlM_cons] at h
    cases hw : writeRow fields v st with
    | none => rw [hw] at h; exact absurd h (by simp)
    | some st1 =>
      rw [hw] at h
      obtain ⟨h1, h2, h3, _, h5⟩ := writeRow_frame fields v st st1 hw
      obtain ⟨g1, g2, g3, g5⟩ := ih st1 st' (by simpa using h)
      refine ⟨by rw [g1, h1], by rw [g2, h2], by rw [g3, h3], ?_⟩
      intro i hi
      rw [g5 i (by rw [h1]; exact hi), h5 i hi]

theorem writeNoTemplatePath_frame (fields : List FieldSpec) (beans : Beans)
    (st st' : XlsxState) (h : writeNoTemplatePath fields beans st = some st') :
    st'.current = st.current ∧ st'.sheets.length = st.sheets.length ∧
    st'.hasTemplate = st.hasTemplate ∧
    (∀ i, i ≠ st.current →
      st'.sheets.getD i ⟨"", []⟩ = st.sheets.getD i ⟨"", []⟩) := by
  cases beans with
  | one v =>
    obtain ⟨h1, h2, h3, _, h5⟩ := writeRow_frame fields v st st' h
    exact ⟨h1, h2, h3, h5⟩
  | many vs => exact foldlM_writeRow_frame fields vs st st' h

theorem Write_noTemplate_frame (styles : Nat → Bool) (rt : RecordType)
    (beans : Beans) (st : XlsxState) (h : st.hasTemplate = false) :
    ∀ st', Write styles rt beans st = some st' →
      st'.hasTemplate = false ∧
      st'.current = st.sheets.length ∧
      st'.sheets.length = st.sheets.length + 1 ∧
      (∀ i, i < st.sheets.length →
        st'.sheets.getD i ⟨"", []⟩ = st.sheets.getD i ⟨"", []⟩) := by
  intro st' hw
  rw [Write_noTemplate_eq styles rt beans st h] at hw
  obtain ⟨hT, hW, hC, hL, hR, hF⟩ := createSheet_noTemplate rt.ttagSheet st h
  by_cases hflag : ((collectTitles rt.fields).2 || rt.ttagTitle ≠ "" : Bool) = true
  · rw [if_pos hflag] at hw
    have hcur1 : (createSheet rt.ttagSheet st).current <
        (createSheet rt.ttagSheet st).sheets.length := by
      rw [hC, hL]
      omega
    obtain ⟨ht1, ht2, ht3, ht4, _, ht6⟩ :=
      writeTitles_spec rt.fields (collectTitles rt.fields).1
        (createSheet rt.ttagSheet st) hcur1
    obtain ⟨g1, g2, g3, g5⟩ := writeNoTemplatePath_frame rt.fields beans _ st' hw
    refine ⟨by rw [g3, ht3, hT], by rw [g1, ht1, hC], by rw [g2, ht2, hL], ?_⟩
    intro i hi
    have hne : i ≠ (writeTitles rt.fields (collectTitles rt.fields).1
        (createSheet rt.ttagSheet st)).current := by
      rw [ht1, hC]
      omega
    have hne2 : i ≠ (createSheet rt.ttagSheet st).current := by
      rw [hC]
      omega
    rw [g5 i hne, ht6 i hne2]
    exact hF i hi
  · rw [if_neg hflag] at hw
    obtain ⟨g1, g2, g3, g5⟩ := writeNoTemplatePath_frame rt.fields beans _ st' hw
    refine ⟨by rw [g3, hT], by rw [g1, hC], by rw [g2, hL], ?_⟩
    intro i hi
    have hne : i ≠ (createSheet rt.ttagSheet st).current := by
      rw [hC]
      omega
    rw [g5 i hne]
    exact hF i hi

/-- C10: on an instance constructed without a template file, `createSheet`
always adds a brand-new (empty) sheet and makes it current, and a
successful write call leaves every previously existing sheet untouched;
two successive writes therefore produce two separate sheets — the second
call does not append rows to the first call's sheet, which it leaves
unchanged. -/
theorem C10_fresh_sheet_per_write (styles : Nat → Bool) (rt : RecordType)
    (beans : Beans) (st : XlsxState) (h : st.hasTemplate = false) :
    ((createSheet rt.ttagSheet st).sheets.length = st.sheets.length + 1 ∧
      (createSheet rt.ttagSheet st).current = st.sheets.length ∧
      currentRows (createSheet rt.ttagSheet st) = [] ∧
      (∀ i, i < st.sheets.length →
        (createSheet rt.ttagSheet st).sheets.getD i ⟨"", []⟩ =
          st.sheets.getD i ⟨"", []⟩)) ∧
    (∀ st', Write styles rt beans st = some st' →
      st'.hasTemplate = false ∧
      st'.sheets.length = st.sheets.length + 1 ∧
      (∀ i, i < st.sheets.length →
        st'.sheets.getD i ⟨"", []⟩ = st.sheets.getD i ⟨"", []⟩) ∧
      (∀ (styles2 : Nat → Bool) (rt2 : RecordType) (beans2 : Beans)
          (st'' : XlsxState),
        Write styles2 rt2 beans2 st' = some st'' →
        st''.sheets.length = st.sheets.length + 2 ∧
        (∀ i, i < st.sheets.length + 1 →
          st''.sheets.getD i ⟨"", []⟩ = st'.sheets.getD i ⟨"", []⟩))) := by
  obtain ⟨hT, hW, hC, hL, hR, hF⟩ := createSheet_noTemplate rt.ttagSheet st h
  refine ⟨⟨hL, hC, hR, hF⟩, ?_⟩
  intro st' hw
  obtain ⟨p1, p2, p3, p4⟩ := Write_noTemplate_frame styles rt beans st h st' hw
  refine ⟨p1, p3, p4, ?_⟩
  intro styles2 rt2 beans2 st'' hw2
  obtain ⟨q1, q2, q3, q4⟩ :=
    Write_noTemplate_frame styles2 rt2 beans2 st' p1 st'' hw2
  constructor
  · rw [q3, p3]
  · intro i hi
    exact q4 i (by rw [p3]; exact hi)

/-- Witness for C10: two successive writes on a fresh no-template
instance create sheets 1 and 2; the second write leaves the first sheet
(index 0) unchanged. -/
theorem C10_witness :
    Write (fun _ => false) ⟨[⟨"Total", 0, "", ""⟩], "", ""⟩
      (.one (.structV [.strV "v"])) ⟨[], 0, 0, false⟩ =
      some ⟨[⟨"Sheet 1", [⟨1, [⟨"A", .str "v", none⟩]⟩]⟩], 0, 0, false⟩ ∧
    ((⟨[⟨"Sheet 1", [⟨1, [⟨"A", .str "v", none⟩]⟩]⟩], 0, 0, false⟩ :
        XlsxState).sheets.length = 1) ∧
    (∀ st'', Write (fun _ => false) ⟨[⟨"Total", 0, "", ""⟩], "", ""⟩
        (.one (.structV [.strV "w"]))
        ⟨[⟨"Sheet 1", [⟨1, [⟨"A", .str "v", none⟩]⟩]⟩], 0, 0, false⟩ =
        some st'' →
      st''.sheets.length = 2 ∧
      st''.sheets.getD 0 ⟨"", []⟩ =
        ⟨"Sheet 1", [⟨1, [⟨"A", .str "v", none⟩]⟩]⟩) := by
  refine ⟨rfl, rfl, ?_⟩
  intro st'' hw2
  have h := ((C10_fresh_sheet_per_write (fun _ => false)
    ⟨[⟨"Total", 0, "", ""⟩], "", ""⟩ (.one (.structV [.strV "v"]))
    ⟨[], 0, 0, false⟩ rfl).2
    ⟨[⟨"Sheet 1", [⟨1, [⟨"A", .str "v", none⟩]⟩]⟩], 0, 0, false⟩ rfl).2.2.2
    (fun _ => false) ⟨[⟨"Total", 0, "", ""⟩], "", ""⟩
    (.one (.structV [.strV "w"])) st'' hw2
  exact ⟨h.1, h.2 0 (by omega)⟩

end XlsxGo
